import Mathlib

/-
Verification of the MIFARE Ultralight dump/restore tool (src/utils/nfc-ctc.c)
against its natural-language specification.

The tool is shallowly embedded: every transceiver interaction is resolved by
an explicit environment (a record of the outcomes the radio would produce),
and each C function becomes a Lean function from that environment to a result
together with a trace of the radio commands it issued.  Machine integers are
Nat (all quantities in the tool stay far below 2^32, and the only subtraction,
uiBlocks - page, happens under page < uiBlocks, matching Nat subtraction).
-/

namespace NfcCtc

abbrev Byte := Nat

/-- EV1 variant selector, mirroring the EV1_NONE / EV1_UL11 / EV1_UL21
constants of nfc-ctc.c (lines 65-67). -/
inductive EV1Type where
  | none
  | ul11
  | ul21
deriving DecidableEq

/-- NTAG variant selector, mirroring NTAG_NONE / NTAG_213 / NTAG_215 /
NTAG_216 of nfc-ctc.c (lines 69-72). -/
inductive NTAGType where
  | none
  | n213
  | n215
  | n216
deriving DecidableEq

/-- Radio-facing events.  Each constructor records one command the tool sends
through the transceiver, with the outcome the environment assigned to it.
CRC bytes appended by iso14443a_crc_append are not modelled: the control flow
of nfc-ctc.c never depends on their values. -/
inductive Ev where
  | rawStart (ok : Bool)
  | rawEnd (ok : Bool)
  | versionFrame (ok : Bool)
  | authFrame (pwd : List Byte) (ok : Bool)
  | haltFrame (ok : Bool)
  | bitsFrame (ok : Bool)
  | unlockFrame (ok : Bool)
  | mcRead (page : Nat) (ok : Bool)
  | mcWrite (page : Nat) (ok : Bool)
  | reselect (ok : Bool)
deriving DecidableEq

/-- Recognizer for exit-raw-mode events (raw_mode_end calls). -/
def isRawEndEv : Ev → Bool
  | .rawEnd _ => true
  | _ => false

/-- Recognizer for password-authentication frames (ev1_pwd_auth transmissions). -/
def isAuthEv : Ev → Bool
  | .authFrame _ _ => true
  | _ => false

/-- Recognizer for page-level tag I/O (block-read or page-write commands). -/
def isTagIOEv : Ev → Bool
  | .mcRead _ _ => true
  | .mcWrite _ _ => true
  | _ => false

/-- Recognizer for page-write commands. -/
def isMcWriteEv : Ev → Bool
  | .mcWrite _ _ => true
  | _ => false

/-! ## Variant classification (main, lines 634-674) -/

/-- Outcome of classifying a version-response byte: either the variant
selectors together with the page count assigned to uiBlocks, or the
unknown-variant failure (exit(EXIT_FAILURE) at line 664). -/
inductive ClassifyResult where
  | ok (ev1 : EV1Type) (ntag : NTAGType) (uiBlocks : Nat)
  | unknownVariant
deriving DecidableEq

/-- Classification of byte 6 of the version response, translated from the
if-chain of main at lines 637-665. -/
def classifyByte (b : Byte) : ClassifyResult :=
  if b = 0x0b ∨ b = 0x00 then .ok .ul11 .none 20
  else if b = 0x0e then .ok .ul21 .none 41
  else if b = 0x0f then .ok .none .n213 45
  else if b = 0x11 then .ok .none .n215 135
  else if b = 0x13 then .ok .none .n216 231
  else .unknownVariant

/-- Classification including the no-version-response case: when
get_ev1_version fails, uiBlocks keeps its initial value 0x10 = 16 and both
variant selectors keep their NONE initial values (lines 84, 88-89, 666-674). -/
def classify : Option Byte → ClassifyResult
  | some b => classifyByte b
  | none => .ok .none .none 16

/-! ## Process-argument parsing (main, lines 529-550)

Only -d and -w flags and positive decimal byte ranges are recognized; the
bPWD session flag (line 521) is initialized false and no statement of main
assigns it.  parseArgs returns none when main would print usage and exit. -/

/-- Whitespace recognizer matching isspace on the C locale. -/
def isSpaceB (c : Char) : Bool :=
  c.toNat = 32 || c.toNat = 9 || c.toNat = 10 || c.toNat = 11 ||
  c.toNat = 12 || c.toNat = 13

/-- Decimal-digit recognizer. -/
def isDigitB (c : Char) : Bool :=
  48 ≤ c.toNat && c.toNat ≤ 57

/-- Accumulate the leading decimal digits of a character list. -/
def readDigits : List Char → Nat → Nat
  | [], acc => acc
  | c :: cs, acc =>
    if isDigitB c then readDigits cs (acc * 10 + (c.toNat - 48)) else acc

/-- Model of atoi: skip whitespace, optional sign, leading digits (overflow
is not modelled; the tool only compares the result against small bounds). -/
def atoi (cs : List Char) : Int :=
  match cs.dropWhile isSpaceB with
  | '-' :: rest => - (readDigits rest 0 : Int)
  | '+' :: rest => (readDigits rest 0 : Int)
  | rest => (readDigits rest 0 : Int)

/-- Session parameters resolved by the argument loop of main.  bPWD is the
password flag declared at line 521; the loop at lines 529-550 never assigns
it. -/
structure Args where
  logging : Bool
  waitForTag : Bool
  startByte : Int
  stopByte : Int
  bPWD : Bool
deriving DecidableEq

/-- One iteration of the argument loop (lines 530-549): dash options set
logging or wait flags, unknown dash options exit via usage, positive numbers
fill startByte then stopByte, anything else is ignored. -/
def argStep (a : Args) (s : List Char) : Option Args :=
  match s with
  | '-' :: 'd' :: _ => some { a with logging := true }
  | '-' :: 'w' :: _ => some { a with waitForTag := true }
  | '-' :: _ => none
  | _ =>
    let val := atoi s
    if 0 < val then
      if a.startByte = -1 then some { a with startByte := val }
      else if a.stopByte = -1 then some { a with stopByte := val }
      else none
    else some a

/-- The argument loop folded over argv (the loop starts at index 0, so the
program name is processed like any other argument, exactly as in the C). -/
def parseLoop : List (List Char) → Args → Option Args
  | [], a => some a
  | s :: rest, a =>
    match argStep a s with
    | none => none
    | some next => parseLoop rest next

/-- Initial values of the locals of main (lines 513-527): all flags false,
start and stop bytes -1.  The post-loop defaulting of startByte to 28 and
stopByte to 45 (lines 552-557) only affects the print range and is not part
of any claim. -/
def argsInit : Args :=
  { logging := false, waitForTag := false, startByte := -1, stopByte := -1,
    bPWD := false }

/-- Full argument parsing of main. -/
def parseArgs (argv : List (List Char)) : Option Args :=
  parseLoop argv argsInit

/-! ## Password parsing (ev1_load_pwd, lines 253-264)

The C function runs sscanf(pwd, "%2x%2x%2x%2x", ...) and succeeds exactly
when all four conversions match.  Each %2x conversion skips whitespace and
then consumes one or two hexadecimal digits (at least one).  The model
covers inputs made of hex digits, whitespace and other plain characters; the
sign and 0x-prefix corner cases of strtoul-style conversion do not arise in
any claim and are not modelled. -/

/-- Hexadecimal-digit recognizer (0-9, a-f, A-F). -/
def isHexDigitB (c : Char) : Bool :=
  (48 ≤ c.toNat && c.toNat ≤ 57) || (97 ≤ c.toNat && c.toNat ≤ 102) ||
  (65 ≤ c.toNat && c.toNat ≤ 70)

/-- Numeric value of a hexadecimal digit. -/
def hexVal (c : Char) : Nat :=
  if 48 ≤ c.toNat && c.toNat ≤ 57 then c.toNat - 48
  else if 97 ≤ c.toNat && c.toNat ≤ 102 then c.toNat - 87
  else c.toNat - 55

/-- One %2x conversion: skip whitespace, then read one or two hex digits;
returns the value and the unconsumed rest, or none on a matching failure. -/
def scan2x (cs : List Char) : Option (Nat × List Char) :=
  match cs.dropWhile isSpaceB with
  | [] => none
  | c :: rest =>
    if isHexDigitB c then
      match rest with
      | d :: rest2 =>
        if isHexDigitB d then some (hexVal c * 16 + hexVal d, rest2)
        else some (hexVal c, rest)
      | [] => some (hexVal c, [])
    else none

/-- Model of ev1_load_pwd (lines 253-264): the four %2x conversions must all
match; on success the four byte values are returned (the trailing rest of
the text is ignored, as sscanf ignores it). -/
def ev1_load_pwd (pwd : List Char) : Option (List Byte) :=
  match scan2x pwd with
  | Option.none => none
  | some (b0, r0) =>
    match scan2x r0 with
    | Option.none => none
    | some (b1, r1) =>
      match scan2x r1 with
      | Option.none => none
      | some (b2, r2) =>
        match scan2x r2 with
        | Option.none => none
        | some (b3, _) => some [b0, b1, b2, b3]

/-- Statement of the format the specification demands: text that decodes as
exactly four 2-hex-digit byte groups in sequence (format XXXXXXXX).  This
definition follows the words of the specification, to be compared with the
behaviour of ev1_load_pwd. -/
def fourHexFormat (cs : List Char) : Bool :=
  cs.length = 8 && cs.all isHexDigitB

/-! ## Raw-mode operations (lines 236-344)

raw_mode_start / raw_mode_end toggle CRC handling and easy framing; the
environments below record whether each toggle pair and each transceive
succeeds.  Every operation returns the trace of radio events it issued and
its boolean result. -/

/-- Environment for get_ev1_version: outcomes of raw_mode_start, the
version-query transceive, raw_mode_end, and the response bytes left in
abtRx (resp is meaningful only when the transceive succeeded; an empty resp
models szRx = 0). -/
structure ProbeEnv where
  startOk : Bool
  txOk : Bool
  endOk : Bool
  resp : List Byte

/-- Model of get_ev1_version (lines 236-251): enter raw mode, send the
version frame, leave raw mode; on a failed transceive raw_mode_end is still
called (line 243) and its result discarded; an empty response makes the
probe fail after a clean raw-mode exit (line 248). -/
def get_ev1_version (e : ProbeEnv) : List Ev × Bool :=
  if e.startOk = false then ([.rawStart false], false)
  else if e.txOk = false then
    ([.rawStart true, .versionFrame false, .rawEnd e.endOk], false)
  else if e.endOk = false then
    ([.rawStart true, .versionFrame true, .rawEnd false], false)
  else if e.resp.length = 0 then
    ([.rawStart true, .versionFrame true, .rawEnd true], false)
  else ([.rawStart true, .versionFrame true, .rawEnd true], true)

/-- Environment for ev1_pwd_auth: outcomes of the raw-mode toggles and of
the authentication transceive. -/
structure AuthEnv where
  startOk : Bool
  txOk : Bool
  endOk : Bool

/-- Model of ev1_pwd_auth (lines 266-278): enter raw mode, send the 0x1B
frame carrying the password; when the transceive fails the function returns
false WITHOUT calling raw_mode_end (line 273-274), so no rawEnd event is
issued on that path. -/
def ev1_pwd_auth (pwd : List Byte) (e : AuthEnv) : List Ev × Bool :=
  if e.startOk = false then ([.rawStart false], false)
  else if e.txOk = false then ([.rawStart true, .authFrame pwd false], false)
  else if e.endOk = false then
    ([.rawStart true, .authFrame pwd true, .rawEnd false], false)
  else ([.rawStart true, .authFrame pwd true, .rawEnd true], true)

/-- Environment for unlock_card: outcomes of the raw-mode toggles, the halt
frame, the 7-bit 0x40 frame, and the 1-byte 0x43 frame. -/
structure UnlockEnv where
  startOk : Bool
  haltOk : Bool
  bitsOk : Bool
  unlock2Ok : Bool
  endOk : Bool

/-- Model of unlock_card (lines 280-298): enter raw mode; send the halt
frame ignoring its result; send the 7-bit unlock frame and the 1-byte
unlock frame, returning false WITHOUT raw_mode_end when either fails
(lines 288-293); otherwise exit raw mode and succeed. -/
def unlock_card (e : UnlockEnv) : List Ev × Bool :=
  if e.startOk = false then ([.rawStart false], false)
  else if e.bitsOk = false then
    ([.rawStart true, .haltFrame e.haltOk, .bitsFrame false], false)
  else if e.unlock2Ok = false then
    ([.rawStart true, .haltFrame e.haltOk, .bitsFrame true,
      .unlockFrame false], false)
  else if e.endOk = false then
    ([.rawStart true, .haltFrame e.haltOk, .bitsFrame true,
      .unlockFrame true, .rawEnd false], false)
  else
    ([.rawStart true, .haltFrame e.haltOk, .bitsFrame true,
      .unlockFrame true, .rawEnd true], true)

/-- Environment for check_magic: outcome of the block-read of pages 0-2
(read0, with its 12 data bytes when it succeeds), outcomes of the three
page-writes, and the unlock_card environment for the backdoor fallback. -/
structure MagicEnv where
  read0 : Option (List Byte)
  write : Nat → Bool
  unlockEnv : UnlockEnv

/-- The self-write loop of check_magic (lines 322-334): pages 0, 1, 2 are
written in order, stopping at the first failure.  The data written comes
from the original_b0 buffer, which holds the read-back bytes when the read
succeeded and INDETERMINATE (uninitialized) bytes when it failed; the data
never influences control flow, so the events record only page and outcome. -/
def magicWrites (w : Nat → Bool) : List Ev × Bool :=
  if w 0 = false then ([.mcWrite 0 false], false)
  else if w 1 = false then ([.mcWrite 0 true, .mcWrite 1 false], false)
  else if w 2 = false then
    ([.mcWrite 0 true, .mcWrite 1 true, .mcWrite 2 false], false)
  else ([.mcWrite 0 true, .mcWrite 1 true, .mcWrite 2 true], true)

/-- Model of check_magic (lines 300-344).  Note the structure of the C
source: the write loop at lines 321-334 sits OUTSIDE the success branch of
the read at lines 308-320, so the three page-writes are attempted even when
the block-read failed (in that case original_b0 is uninitialized).  The tag
is DirectWrite only when the read and all three writes succeeded; otherwise
unlock_card runs. -/
def check_magic (e : MagicEnv) : List Ev × Bool :=
  let readOk := e.read0.isSome
  let wr := magicWrites e.write
  let directWrite := readOk && wr.2
  let tr := .mcRead 0 readOk :: wr.1
  if directWrite then (tr, true)
  else
    let ur := unlock_card e.unlockEnv
    (tr ++ ur.1, ur.2)

/-! ## Bulk read (read_card, lines 123-181)

The dump image is the flat byte view of the mtDump buffer, zero-filled
before the read (memset at line 689).  The loop reads one 16-byte block per
4-page stride; a failed read sets bFailure, which the loop NEVER clears, and
print_success_or_failure counts each page of a stride as ok or failed
according to the current bFailure value. -/

/-- Environment for read_card: outcome of the block-read at each stride
start page, with the 16 response bytes (indexed 0-15) when it succeeds. -/
structure ReadEnv where
  readBlock : Nat → Option (Nat → Byte)

/-- State threaded through the read loop: the image bytes, the sticky
failure flag, the uiReadPages and uiFailedPages counters, and the trace. -/
structure RdSt where
  image : Nat → Byte
  bFailure : Bool
  ok : Nat
  failed : Nat
  trace : List Ev

/-- Pages counted in the stride starting at page (the bound of the counting
loop at line 139): uiBlocks - page when fewer than 4 remain, else 4. -/
def pagesInStride (uiBlocks page : Nat) : Nat :=
  if uiBlocks - page < 4 then uiBlocks - page else 4

/-- Byte length of the memcpy at line 135: (uiBlocks - page) * 4 when fewer
than 4 pages remain, else 16. -/
def strideLen (uiBlocks page : Nat) : Nat :=
  if uiBlocks - page < 4 then (uiBlocks - page) * 4 else 16

/-- One iteration of the read loop (lines 132-142) at stride start page:
on a successful block-read the stride bytes are copied into the image at
byte offset page * 4; on failure bFailure is set; either way each page of
the stride is counted according to the current bFailure value. -/
def rdStep (env : ReadEnv) (uiBlocks : Nat) (st : RdSt) (page : Nat) : RdSt :=
  let cnt := pagesInStride uiBlocks page
  match env.readBlock page with
  | some data =>
    let img := fun i =>
      if 4 * page ≤ i ∧ i < 4 * page + strideLen uiBlocks page then
        data (i - 4 * page)
      else st.image i
    if st.bFailure then
      { image := img, bFailure := st.bFailure, ok := st.ok,
        failed := st.failed + cnt, trace := st.trace ++ [.mcRead page true] }
    else
      { image := img, bFailure := st.bFailure, ok := st.ok + cnt,
        failed := st.failed, trace := st.trace ++ [.mcRead page true] }
  | Option.none =>
    { image := st.image, bFailure := true, ok := st.ok,
      failed := st.failed + cnt, trace := st.trace ++ [.mcRead page false] }

/-- The read loop: page starts at 0 and advances by 4 while page < uiBlocks.
The fuel argument only bounds the iteration count; uiBlocks units of fuel
always suffice since each iteration advances page by 4. -/
def rdLoop (env : ReadEnv) (uiBlocks : Nat) : Nat → RdSt → Nat → RdSt
  | 0, st, _ => st
  | fuel + 1, st, page =>
    if page < uiBlocks then
      rdLoop env uiBlocks fuel (rdStep env uiBlocks st page) (page + 4)
    else st

/-- Initial read state: zero image (memset at line 689), no failure, zero
counters (uiReadPages and uiFailedPages start at 0). -/
def rdInit : RdSt :=
  { image := fun _ => 0, bFailure := false, ok := 0, failed := 0, trace := [] }

/-- The whole block-read phase of read_card (lines 132-142). -/
def bulkRead (env : ReadEnv) (uiBlocks : Nat) : RdSt :=
  rdLoop env uiBlocks uiBlocks rdInit 0

/-! ## Secret overlay (read_card, lines 147-178)

The byte offsets of the pwd and pack fields inside mtDump come from the
struct declarations of mifare.h, which is not part of src/.

Modelled from the spec: overlay_secrets writes the password at the active
Variant password_page_offset and the PACK at its pack_page_offset inside the
dump image; the only concrete placement the spec fixes is the UL11 scenario
(password fills page 4, PACK fills the first two bytes of page 5).  The
offsets are therefore kept as an explicit parameter, with specOffsets below
instantiating the UL11 offsets from the spec scenario. -/

/-- Copy a byte list into an image at a byte offset (one memcpy). -/
def overlayAt (off : Nat) (src : List Byte) (img : Nat → Byte) : Nat → Byte :=
  fun i =>
    if off ≤ i ∧ i < off + src.length then src.getD (i - off) 0 else img i

/-- Byte offsets of the pwd and pack secret fields inside the dump image,
one pair per variant (the parameter replacing the mifare.h struct layout). -/
structure OverlayOffsets where
  ul11Pwd : Nat
  ul11Pack : Nat
  ul21Pwd : Nat
  ul21Pack : Nat
  n213Pwd : Nat
  n213Pack : Nat
  n215Pwd : Nat
  n215Pack : Nat
  n216Pwd : Nat
  n216Pack : Nat

/-- Modelled from the spec: concrete offsets.  The UL11 pair comes from the
spec scenario (password at page 4 = byte 16, PACK at page 5 = byte 20); the
remaining pairs are the adjacent pwd/pack page positions at the end of each
variant memory map that the spec data model describes, and no claim depends
on them. -/
def specOffsets : OverlayOffsets :=
  { ul11Pwd := 16, ul11Pack := 20,
    ul21Pwd := 39 * 4, ul21Pack := 40 * 4,
    n213Pwd := 43 * 4, n213Pack := 44 * 4,
    n215Pwd := 133 * 4, n215Pack := 134 * 4,
    n216Pwd := 229 * 4, n216Pack := 230 * 4 }

/-- The EV1 secret-overlay switch of read_card (lines 148-160): pwd copied
first, then pack. -/
def applyEv1Overlay (offs : OverlayOffsets) (ev1 : EV1Type)
    (iPWD iPACK : List Byte) (img : Nat → Byte) : Nat → Byte :=
  match ev1 with
  | .ul11 => overlayAt offs.ul11Pack iPACK (overlayAt offs.ul11Pwd iPWD img)
  | .ul21 => overlayAt offs.ul21Pack iPACK (overlayAt offs.ul21Pwd iPWD img)
  | .none => img

/-- The NTAG secret-overlay switch of read_card (lines 162-178). -/
def applyNtagOverlay (offs : OverlayOffsets) (ntag : NTAGType)
    (iPWD iPACK : List Byte) (img : Nat → Byte) : Nat → Byte :=
  match ntag with
  | .n213 => overlayAt offs.n213Pack iPACK (overlayAt offs.n213Pwd iPWD img)
  | .n215 => overlayAt offs.n215Pack iPACK (overlayAt offs.n215Pwd iPWD img)
  | .n216 => overlayAt offs.n216Pack iPACK (overlayAt offs.n216Pwd iPWD img)
  | .none => img

/-- Result of read_card: the final image, the boolean return value
(!bFailure, line 180), the two counters, and the event trace. -/
structure ReadRes where
  image : Nat → Byte
  result : Bool
  readPages : Nat
  failedPages : Nat
  trace : List Ev

/-- Model of read_card (lines 123-181): bulk read, then the EV1 overlay
switch, then the NTAG overlay switch. -/
def read_card (env : ReadEnv) (uiBlocks : Nat) (ev1 : EV1Type)
    (ntag : NTAGType) (offs : OverlayOffsets) (iPWD iPACK : List Byte) :
    ReadRes :=
  let st := bulkRead env uiBlocks
  { image := applyNtagOverlay offs ntag iPWD iPACK
      (applyEv1Overlay offs ev1 iPWD iPACK st.image),
    result := !st.bFailure,
    readPages := st.ok,
    failedPages := st.failed,
    trace := st.trace }

/-! ## Page write-back (write_card, lines 346-449)

The four permission flags are resolved first: a flag passed false triggers
an interactive prompt (lines 357-389) whose yes answer sets it; the prompt
answers are part of the environment.  The write loop then runs from
uiSkippedPages (2 when UID writing is off, else 0) to uiBlocks - 1. -/

/-- Interactive confirmation answers for the four prompts (true models an
answer starting with y or Y). -/
structure Prompts where
  otp : Bool
  lock : Bool
  dynLock : Bool
  uid : Bool

/-- Flag resolution for otp, lock and uid (lines 357-389): a flag already
true is kept, otherwise the prompt answer decides. -/
def resolveFlag (flag answer : Bool) : Bool :=
  if flag then true else answer

/-- Flag resolution for the dynamic-lock flag (lines 375-381): the prompt is
only issued when the variant has dynamic lock bytes (NTAG or MF0UL21). -/
def resolveDyn (flag : Bool) (answer : Bool) (ev1 : EV1Type)
    (ntag : NTAGType) : Bool :=
  if flag then true
  else if ntag ≠ NTAGType.none ∨ ev1 = EV1Type.ul21 then answer
  else false

/-- Whether the page is the dynamic-lock page of the active variant
(condition at lines 417-420): 0x24 for MF0UL21, 0x28 for NTAG213, 0x82 for
NTAG215, 0xe2 for NTAG216. -/
def dynLockPage (ev1 : EV1Type) (ntag : NTAGType) (page : Nat) : Bool :=
  (ev1 = EV1Type.ul21 && page = 0x24) || (ntag = NTAGType.n213 && page = 0x28) ||
  (ntag = NTAGType.n215 && page = 0x82) || (ntag = NTAGType.n216 && page = 0xe2)

/-- Environment for write_card: the prompt answers, the check_magic
environment, the outcome of the page-write at each page, and the outcome of
the re-selection performed at each page after a failed write. -/
structure WEnv where
  prompts : Prompts
  magic : MagicEnv
  writeOk : Nat → Bool
  reselectOk : Nat → Bool

/-- State of the write loop: the sticky failure flag (cleared only by a
successful re-selection), the three counters, and the lists of pages
skipped inside the loop and of pages a write command was issued for. -/
structure WSt where
  bFailure : Bool
  written : Nat
  skipped : Nat
  failed : Nat
  skippedPages : List Nat
  attempted : List Nat
deriving DecidableEq

/-- One iteration of the write loop (lines 404-444).  Sum.inl continues
with the new state; Sum.inr aborts the whole write (re-selection after a
failed write itself failed: "tag was removed", line 429, return false). -/
def wrStep (env : WEnv) (otp lock dyn : Bool) (ev1 : EV1Type)
    (ntag : NTAGType) (st : WSt) (page : Nat) : WSt ⊕ WSt :=
  if lock = false ∧ page = 2 then
    Sum.inl { st with skipped := st.skipped + 1,
                      skippedPages := st.skippedPages ++ [page] }
  else if page = 3 ∧ otp = false then
    Sum.inl { st with skipped := st.skipped + 1,
                      skippedPages := st.skippedPages ++ [page] }
  else if dynLockPage ev1 ntag page = true ∧ dyn = false then
    Sum.inl { st with skipped := st.skipped + 1,
                      skippedPages := st.skippedPages ++ [page] }
  else if st.bFailure ∧ env.reselectOk page = false then
    Sum.inr st
  else
    let ok := env.writeOk page
    Sum.inl { bFailure := !ok,
              written := st.written + (if ok then 1 else 0),
              skipped := st.skipped,
              failed := st.failed + (if ok then 0 else 1),
              skippedPages := st.skippedPages,
              attempted := st.attempted ++ [page] }

/-- The write loop from a given page; the boolean of the result is true
when the loop was aborted by a failed re-selection.  uiBlocks units of fuel
always suffice. -/
def wrLoop (env : WEnv) (otp lock dyn : Bool) (ev1 : EV1Type)
    (ntag : NTAGType) (uiBlocks : Nat) : Nat → WSt → Nat → WSt × Bool
  | 0, st, _ => (st, false)
  | fuel + 1, st, page =>
    if page < uiBlocks then
      match wrStep env otp lock dyn ev1 ntag st page with
      | Sum.inl next => wrLoop env otp lock dyn ev1 ntag uiBlocks fuel next (page + 1)
      | Sum.inr aborted => (aborted, true)
    else (st, false)

/-- Result of write_card: magicFail models the return false at line 399
after a failed unlock; tagLost the return false at line 430; done the
return true at line 448.  The magicInvoked flag records whether check_magic
ran (it runs exactly when the resolved UID flag is set, lines 396-402). -/
inductive WriteResult where
  | magicFail (magicTrace : List Ev)
  | tagLost (st : WSt) (magicInvoked : Bool)
  | done (st : WSt) (magicInvoked : Bool)
deriving DecidableEq

/-- Pages for which a page-write command was issued during the session. -/
def WriteResult.attempted : WriteResult → List Nat
  | .magicFail _ => []
  | .tagLost st _ => st.attempted
  | .done st _ => st.attempted

/-- Whether the Magic-Tag Unlocker (check_magic) ran during the session. -/
def WriteResult.magicRan : WriteResult → Bool
  | .magicFail _ => true
  | .tagLost _ m => m
  | .done _ m => m

/-- Model of write_card (lines 346-449): resolve the four flags through the
prompts, then either start at page 2 with uiSkippedPages = 2 (UID writing
off, lines 392-395) or run check_magic and start at page 0 (lines 396-402). -/
def write_card (env : WEnv) (wotp wlock wdyn wuid : Bool) (ev1 : EV1Type)
    (ntag : NTAGType) (uiBlocks : Nat) : WriteResult :=
  let otp := resolveFlag wotp env.prompts.otp
  let lock := resolveFlag wlock env.prompts.lock
  let dyn := resolveDyn wdyn env.prompts.dynLock ev1 ntag
  let uid := resolveFlag wuid env.prompts.uid
  if uid = false then
    let st0 : WSt := { bFailure := false, written := 0, skipped := 2,
                       failed := 0, skippedPages := [], attempted := [] }
    let r := wrLoop env otp lock dyn ev1 ntag uiBlocks uiBlocks st0 2
    if r.2 then .tagLost r.1 false else .done r.1 false
  else
    let mr := check_magic env.magic
    if mr.2 = false then .magicFail mr.1
    else
      let st0 : WSt := { bFailure := false, written := 0, skipped := 0,
                         failed := 0, skippedPages := [], attempted := [] }
      let r := wrLoop env otp lock dyn ev1 ntag uiBlocks uiBlocks st0 0
      if r.2 then .tagLost r.1 true else .done r.1 true

/-! ## The session of main (lines 633-717)

The slice modelled starts after tag selection and the ATQA check: version
probe, classification, the (dead) password-authentication branch, the
memset of mtDump, and the read.  The locals of main reaching this slice are
the parsed Args; the globals iPWD and iPACK start zero-filled (lines 86-87)
and ev1_load_pwd has no caller anywhere in the file. -/

/-- Environment for the session slice: probe outcomes, the re-selection of
line 668, the authentication outcomes (dead code, still modelled), the
authentication response buffer, and the block-read outcomes. -/
structure SessEnv where
  probe : ProbeEnv
  reselectOk : Bool
  auth : AuthEnv
  authResp : List Byte
  read : ReadEnv

/-- Session outcome: the three exit(EXIT_FAILURE) paths of the slice, or
completion with the dump image and the read_card return value. -/
inductive SessOut where
  | exitUnknownVariant
  | exitNoTag
  | exitAuthFailed
  | completed (image : Nat → Byte) (readOk : Bool)

/-- Result of the session slice: outcome, full event trace, the final
values of the iPWD and iPACK globals, and the classification state. -/
structure SessRes where
  out : SessOut
  trace : List Ev
  iPWD : List Byte
  iPACK : List Byte
  uiBlocks : Nat
  iEV1 : EV1Type
  iNTAG : NTAGType

/-- Continuation of the session after classification: the bPWD branch
(lines 677-687) then read_card (line 692). -/
def afterProbe (a : Args) (env : SessEnv) (offs : OverlayOffsets)
    (iPWD : List Byte) (tr : List Ev) (ev1 : EV1Type) (ntag : NTAGType)
    (blocks : Nat) : SessRes :=
  if a.bPWD then
    let ar := ev1_pwd_auth iPWD env.auth
    if ar.2 = false then
      { out := .exitAuthFailed, trace := tr ++ ar.1, iPWD := iPWD,
        iPACK := [0, 0], uiBlocks := blocks, iEV1 := ev1, iNTAG := ntag }
    else
      let iPACK := [env.authResp.getD 0 0, env.authResp.getD 1 0]
      let r := read_card env.read blocks ev1 ntag offs iPWD iPACK
      { out := .completed r.image r.result, trace := tr ++ ar.1 ++ r.trace,
        iPWD := iPWD, iPACK := iPACK, uiBlocks := blocks, iEV1 := ev1,
        iNTAG := ntag }
  else
    let r := read_card env.read blocks ev1 ntag offs iPWD [0, 0]
    { out := .completed r.image r.result, trace := tr ++ r.trace,
      iPWD := iPWD, iPACK := [0, 0], uiBlocks := blocks, iEV1 := ev1,
      iNTAG := ntag }

/-- Model of the session slice of main (lines 633-717): run the version
probe; on a response classify byte 6 (exiting on an unknown byte before any
page I/O, line 664); on no response re-select the tag (exiting when that
fails, lines 666-674) and keep the NONE classification with uiBlocks 16. -/
def mainSession (a : Args) (env : SessEnv) (offs : OverlayOffsets) : SessRes :=
  let iPWD : List Byte := [0, 0, 0, 0]
  let pr := get_ev1_version env.probe
  if pr.2 then
    match classifyByte (env.probe.resp.getD 6 0) with
    | .unknownVariant =>
      { out := .exitUnknownVariant, trace := pr.1, iPWD := iPWD,
        iPACK := [0, 0], uiBlocks := 16, iEV1 := .none, iNTAG := .none }
    | .ok ev1 ntag blocks => afterProbe a env offs iPWD pr.1 ev1 ntag blocks
  else
    if env.reselectOk = false then
      { out := .exitNoTag, trace := pr.1 ++ [.reselect false], iPWD := iPWD,
        iPACK := [0, 0], uiBlocks := 16, iEV1 := .none, iNTAG := .none }
    else
      afterProbe a env offs iPWD (pr.1 ++ [.reselect true]) .none .none 16

/-! ## Helper lemmas -/

/-- A hexadecimal digit is never whitespace. -/
theorem hex_not_space (c : Char) (h : isHexDigitB c = true) : isSpaceB c = false := by
  simp only [isHexDigitB, Bool.or_eq_true, Bool.and_eq_true, decide_eq_true_eq] at h
  simp only [isSpaceB, Bool.or_eq_false_iff, decide_eq_false_iff_not]
  omega

/-- Evaluation of one %2x conversion on two leading hex digits. -/
theorem scan2x_cons (c d : Char) (rest : List Char) (hc : isHexDigitB c = true)
    (hd : isHexDigitB d = true) :
    scan2x (c :: d :: rest) = some (hexVal c * 16 + hexVal d, rest) := by
  unfold scan2x
  rw [List.dropWhile_cons]
  simp [hex_not_space c hc, hc, hd]

/-! ## Claim theorems -/

/-- C7 counterexample: the claim says parse_password fails on every input
that is not exactly four 2-hex-digit groups, but the text 1a2b3c4dff (ten
characters, not of format XXXXXXXX) is accepted by ev1_load_pwd, because
sscanf stops after the four conversions and ignores trailing text. -/
theorem claim7_counterexample :
    (ev1_load_pwd "1a2b3c4dff".toList).isSome = true ∧
    fourHexFormat "1a2b3c4dff".toList = false := by
  decide

/-- C7 (amended): ev1_load_pwd succeeds on every text BEGINNING with four
2-hex-digit byte groups, decoding them in sequence and ignoring whatever
follows; in particular 1a2B3c4D decodes to [0x1a, 0x2b, 0x3c, 0x4d], and
1a2b3c (one group short) fails. -/
theorem claim7_password_parsing :
    (∀ (c0 c1 c2 c3 c4 c5 c6 c7 : Char) (rest : List Char),
      isHexDigitB c0 = true → isHexDigitB c1 = true → isHexDigitB c2 = true →
      isHexDigitB c3 = true → isHexDigitB c4 = true → isHexDigitB c5 = true →
      isHexDigitB c6 = true → isHexDigitB c7 = true →
      ev1_load_pwd (c0 :: c1 :: c2 :: c3 :: c4 :: c5 :: c6 :: c7 :: rest) =
        some [hexVal c0 * 16 + hexVal c1, hexVal c2 * 16 + hexVal c3,
              hexVal c4 * 16 + hexVal c5, hexVal c6 * 16 + hexVal c7]) ∧
    ev1_load_pwd "1a2B3c4D".toList = some [0x1a, 0x2b, 0x3c, 0x4d] ∧
    ev1_load_pwd "1a2b3c".toList = Option.none := by
  refine ⟨?_, by decide, by decide⟩
  intro c0 c1 c2 c3 c4 c5 c6 c7 rest h0 h1 h2 h3 h4 h5 h6 h7
  unfold ev1_load_pwd
  simp only [scan2x_cons _ _ _ h0 h1, scan2x_cons _ _ _ h2 h3,
    scan2x_cons _ _ _ h4 h5, scan2x_cons _ _ _ h6 h7]

/-- C7 witness: the amended universal statement applied to the concrete
characters of 1a2B3c4D. -/
theorem claim7_password_parsing_witness :
    ev1_load_pwd ['1', 'a', '2', 'B', '3', 'c', '4', 'D'] =
      some [hexVal '1' * 16 + hexVal 'a', hexVal '2' * 16 + hexVal 'B',
            hexVal '3' * 16 + hexVal 'c', hexVal '4' * 16 + hexVal 'D'] :=
  claim7_password_parsing.1 '1' 'a' '2' 'B' '3' 'c' '4' 'D' []
    (by decide) (by decide) (by decide) (by decide) (by decide) (by decide)
    (by decide) (by decide)

/-- C4 counterexample: the claim says password authentication restores the
transceiver (exit_raw) before returning even when the transceive fails, but
in the environment where raw mode is entered successfully and the 0x1B
transceive fails, ev1_pwd_auth returns with NO rawEnd event in its trace
(return at line 274 skips raw_mode_end). -/
theorem claim4_counterexample :
    (ev1_pwd_auth [0, 0, 0, 0]
        { startOk := true, txOk := false, endOk := true }).1 =
      [Ev.rawStart true, Ev.authFrame [0, 0, 0, 0] false] ∧
    ((ev1_pwd_auth [0, 0, 0, 0]
        { startOk := true, txOk := false, endOk := true }).1.filter
      isRawEndEv) = [] := by
  decide

/-- C4 (amended): only the version probe restores CRC and framing on its
transceive-failure path; password authentication calls exit_raw exactly when
raw mode was entered and its transceive succeeded, and the magic-unlock
sequence calls exit_raw exactly when raw mode was entered and both the
7-bit and the 1-byte transmissions succeeded (a failed halt does not matter). -/
theorem claim4_raw_mode_restore :
    (∀ e : ProbeEnv, e.startOk = true →
      (get_ev1_version e).1.filter isRawEndEv ≠ []) ∧
    (∀ (pwd : List Byte) (e : AuthEnv),
      ((ev1_pwd_auth pwd e).1.filter isRawEndEv ≠ []) ↔
        (e.startOk = true ∧ e.txOk = true)) ∧
    (∀ e : UnlockEnv,
      ((unlock_card e).1.filter isRawEndEv ≠ []) ↔
        (e.startOk = true ∧ e.bitsOk = true ∧ e.unlock2Ok = true)) := by
  refine ⟨?_, ?_, ?_⟩
  · rintro ⟨s, t, en, resp⟩ hs
    simp only at hs
    subst hs
    cases t <;> cases en <;>
      by_cases hr : resp.length = 0 <;>
        simp [get_ev1_version, isRawEndEv, hr]
  · rintro pwd ⟨s, t, en⟩
    cases s <;> cases t <;> cases en <;> simp [ev1_pwd_auth, isRawEndEv]
  · rintro ⟨s, h, b, u, en⟩
    cases s <;> cases h <;> cases b <;> cases u <;> cases en <;>
      simp [unlock_card, isRawEndEv]

/-- Concrete probe environment with a failed version transceive. -/
def c4ProbeEnv : ProbeEnv :=
  { startOk := true, txOk := false, endOk := true, resp := [] }

/-- Concrete authentication environment with a failed 0x1B transceive. -/
def c4AuthEnv : AuthEnv := { startOk := true, txOk := false, endOk := true }

/-- C4 witness: the amended theorem applied to concrete environments: the
probe with a failed transceive still emits a rawEnd event, and the auth with
a failed transceive emits none. -/
theorem claim4_raw_mode_restore_witness :
    ((get_ev1_version c4ProbeEnv).1.filter isRawEndEv ≠ []) ∧
    ¬ ((ev1_pwd_auth [1, 2, 3, 4] c4AuthEnv).1.filter isRawEndEv ≠ []) :=
  ⟨claim4_raw_mode_restore.1 _ rfl,
   fun hne => by
    have h := (claim4_raw_mode_restore.2.1 [1, 2, 3, 4] c4AuthEnv).mp hne
    exact absurd h.2 (by decide)⟩

/-- Concrete check_magic environment in which the block-read of pages 0-2
fails and everything else succeeds. -/
def c5Env : MagicEnv :=
  { read0 := Option.none, write := fun _ => true,
    unlockEnv := { startOk := true, haltOk := true, bitsOk := true,
                   unlock2Ok := true, endOk := true } }

/-- Concrete check_magic environment in which the block-read fails and the
7-bit unlock frame also fails. -/
def c5EnvBitsFail : MagicEnv :=
  { read0 := Option.none, write := fun _ => true,
    unlockEnv := { startOk := true, haltOk := true, bitsOk := false,
                   unlock2Ok := true, endOk := true } }

/-- C5 evaluation at the failing input: when the direct-write probe read
fails, check_magic still issues three page-write commands (with an
uninitialized source buffer) before the backdoor sequence, contradicting
the spec step "if the read fails, skip to step 2"; the backdoor result then
decides the outcome (success with both frames, failure when the 7-bit frame
fails). -/
theorem claim5_magic_fallback_eval :
    (check_magic c5Env).1 =
      [Ev.mcRead 0 false, Ev.mcWrite 0 true, Ev.mcWrite 1 true,
       Ev.mcWrite 2 true, Ev.rawStart true, Ev.haltFrame true,
       Ev.bitsFrame true, Ev.unlockFrame true, Ev.rawEnd true] ∧
    (check_magic c5Env).2 = true ∧
    ((check_magic c5Env).1.filter isMcWriteEv) =
      [Ev.mcWrite 0 true, Ev.mcWrite 1 true, Ev.mcWrite 2 true] ∧
    (check_magic c5EnvBitsFail).2 = false := by
  decide


/-! ## Read-loop lemmas -/

/-- The image after copying one stride of data at a stride start page. -/
def stImg (st : RdSt) (u page : Nat) (data : Nat → Byte) : Nat → Byte :=
  fun i =>
    if 4 * page ≤ i ∧ i < 4 * page + strideLen u page then data (i - 4 * page)
    else st.image i

/-- Evaluation of one read iteration: successful block-read with no prior
failure. -/
theorem rdStep_some_ok (env : ReadEnv) (u : Nat) (st : RdSt) (page : Nat)
    (data : Nat → Byte) (hdata : env.readBlock page = some data)
    (hb : st.bFailure = false) :
    rdStep env u st page =
      { image := stImg st u page data, bFailure := false,
        ok := st.ok + pagesInStride u page, failed := st.failed,
        trace := st.trace ++ [.mcRead page true] } := by
  simp [rdStep, hdata, hb]
  rfl

/-- Evaluation of one read iteration: successful block-read with the
failure flag already set (bytes still copied, pages counted as failed). -/
theorem rdStep_some_fail (env : ReadEnv) (u : Nat) (st : RdSt) (page : Nat)
    (data : Nat → Byte) (hdata : env.readBlock page = some data)
    (hb : st.bFailure = true) :
    rdStep env u st page =
      { image := stImg st u page data, bFailure := true, ok := st.ok,
        failed := st.failed + pagesInStride u page,
        trace := st.trace ++ [.mcRead page true] } := by
  simp [rdStep, hdata, hb]
  rfl

/-- Evaluation of one read iteration: failed block-read. -/
theorem rdStep_none (env : ReadEnv) (u : Nat) (st : RdSt) (page : Nat)
    (hdata : env.readBlock page = Option.none) :
    rdStep env u st page =
      { image := st.image, bFailure := true, ok := st.ok,
        failed := st.failed + pagesInStride u page,
        trace := st.trace ++ [.mcRead page false] } := by
  simp [rdStep, hdata]

/-- The read loop does nothing once page has reached uiBlocks. -/
theorem rdLoop_stop (env : ReadEnv) (u fuel : Nat) (st : RdSt) (page : Nat)
    (h : u ≤ page) : rdLoop env u fuel st page = st := by
  cases fuel with
  | zero => rfl
  | succ f => simp [rdLoop, Nat.not_lt.mpr h]

/-- Splitting a read-loop run at a fuel boundary. -/
theorem rdLoop_split (env : ReadEnv) (u f1 f2 : Nat) :
    ∀ (st : RdSt) (page : Nat),
      rdLoop env u (f1 + f2) st page =
        rdLoop env u f2 (rdLoop env u f1 st page) (page + 4 * f1) := by
  induction f1 with
  | zero => intro st page; simp [rdLoop]
  | succ g ih =>
    intro st page
    rw [Nat.succ_add]
    by_cases h : page < u
    · simp only [rdLoop, if_pos h]
      have e : page + 4 * (g + 1) = page + 4 + 4 * g := by ring
      rw [e, ih]
    · simp only [rdLoop, if_neg h]
      exact (rdLoop_stop env u f2 st _ (by omega)).symm

/-- A run of the read loop over strides that all succeed, with no prior
failure, reaching the end of the tag: every remaining page is counted as
read and none as failed. -/
theorem rdLoop_success_run (env : ReadEnv) (u : Nat) :
    ∀ (fuel page : Nat) (st : RdSt),
      st.bFailure = false →
      (∀ m, page + 4 * m < u → (env.readBlock (page + 4 * m)).isSome) →
      u ≤ page + 4 * fuel →
      (rdLoop env u fuel st page).bFailure = false ∧
      (rdLoop env u fuel st page).ok = st.ok + (u - page) ∧
      (rdLoop env u fuel st page).failed = st.failed := by
  intro fuel
  induction fuel with
  | zero =>
    intro page st hb _ hf
    refine ⟨hb, ?_, rfl⟩
    show st.ok = st.ok + (u - page)
    omega
  | succ f ih =>
    intro page st hb hr hf
    by_cases h : page < u
    · have h0 : (env.readBlock page).isSome := by
        have := hr 0 (by omega)
        simpa using this
      obtain ⟨data, hdata⟩ := Option.isSome_iff_exists.mp h0
      simp only [rdLoop, if_pos h, rdStep_some_ok env u st page data hdata hb]
      have hr2 : ∀ m, (page + 4) + 4 * m < u →
          (env.readBlock ((page + 4) + 4 * m)).isSome := by
        intro m hm
        have e : page + 4 + 4 * m = page + 4 * (m + 1) := by ring
        rw [e]
        exact hr (m + 1) (by omega)
      have hf2 : u ≤ (page + 4) + 4 * f := by omega
      obtain ⟨r1, r2, r3⟩ := ih (page + 4)
        { image := stImg st u page data, bFailure := false,
          ok := st.ok + pagesInStride u page, failed := st.failed,
          trace := st.trace ++ [.mcRead page true] } rfl hr2 hf2
      dsimp only at r2 r3
      refine ⟨r1, ?_, r3⟩
      rw [r2]
      simp only [pagesInStride]
      split <;> omega
    · simp only [rdLoop]
      rw [if_neg h]
      refine ⟨hb, ?_, rfl⟩
      omega

/-- A fuel-limited prefix of the read loop over strides that all succeed:
each of the fuel strides counts 4 pages as read, and no byte at or past the
end of the prefix region is touched. -/
theorem rdLoop_success_pre (env : ReadEnv) (u : Nat) :
    ∀ (fuel page : Nat) (st : RdSt),
      st.bFailure = false →
      (∀ m, m < fuel → (env.readBlock (page + 4 * m)).isSome) →
      page + 4 * fuel ≤ u →
      (rdLoop env u fuel st page).bFailure = false ∧
      (rdLoop env u fuel st page).ok = st.ok + 4 * fuel ∧
      (rdLoop env u fuel st page).failed = st.failed ∧
      ∀ i, 4 * (page + 4 * fuel) ≤ i →
        (rdLoop env u fuel st page).image i = st.image i := by
  intro fuel
  induction fuel with
  | zero =>
    intro page st hb _ _
    refine ⟨hb, ?_, rfl, fun i _ => rfl⟩
    show st.ok = st.ok + 4 * 0
    omega
  | succ f ih =>
    intro page st hb hr hf
    have h : page < u := by omega
    have h0 : (env.readBlock page).isSome := by
      have := hr 0 (by omega)
      simpa using this
    obtain ⟨data, hdata⟩ := Option.isSome_iff_exists.mp h0
    simp only [rdLoop, if_pos h, rdStep_some_ok env u st page data hdata hb]
    have hr2 : ∀ m, m < f → (env.readBlock ((page + 4) + 4 * m)).isSome := by
      intro m hm
      have e : page + 4 + 4 * m = page + 4 * (m + 1) := by ring
      rw [e]
      exact hr (m + 1) (by omega)
    have hf2 : (page + 4) + 4 * f ≤ u := by omega
    have hcnt : pagesInStride u page = 4 := by
      simp only [pagesInStride]
      split <;> omega
    have hlen : strideLen u page = 16 := by
      simp only [strideLen]
      split <;> omega
    obtain ⟨r1, r2, r3, r4⟩ := ih (page + 4)
      { image := stImg st u page data, bFailure := false,
        ok := st.ok + pagesInStride u page, failed := st.failed,
        trace := st.trace ++ [.mcRead page true] } rfl hr2 hf2
    dsimp only at r2 r3 r4
    refine ⟨r1, ?_, r3, ?_⟩
    · rw [r2, hcnt]
      omega
    · intro i hi
      rw [r4 i (by omega)]
      simp only [stImg, hlen]
      have hout : ¬(4 * page ≤ i ∧ i < 4 * page + 16) := by omega
      simp [hout]

/-- A run of the read loop with the failure flag already set, reaching the
end of the tag: every remaining page is counted as failed (even pages of
strides whose block-read succeeds), none as read. -/
theorem rdLoop_fail_run (env : ReadEnv) (u : Nat) :
    ∀ (fuel page : Nat) (st : RdSt),
      st.bFailure = true →
      u ≤ page + 4 * fuel →
      (rdLoop env u fuel st page).bFailure = true ∧
      (rdLoop env u fuel st page).ok = st.ok ∧
      (rdLoop env u fuel st page).failed = st.failed + (u - page) := by
  intro fuel
  induction fuel with
  | zero =>
    intro page st hb hf
    refine ⟨hb, rfl, ?_⟩
    show st.failed = st.failed + (u - page)
    omega
  | succ f ih =>
    intro page st hb hf
    by_cases h : page < u
    · have hf2 : u ≤ (page + 4) + 4 * f := by omega
      cases hdata : env.readBlock page with
      | none =>
        simp only [rdLoop, if_pos h, rdStep_none env u st page hdata]
        obtain ⟨r1, r2, r3⟩ := ih (page + 4)
          { image := st.image, bFailure := true, ok := st.ok,
            failed := st.failed + pagesInStride u page,
            trace := st.trace ++ [.mcRead page false] } rfl hf2
        dsimp only at r2 r3
        refine ⟨r1, r2, ?_⟩
        rw [r3]
        simp only [pagesInStride]
        split <;> omega
      | some data =>
        simp only [rdLoop, if_pos h, rdStep_some_fail env u st page data hdata hb]
        obtain ⟨r1, r2, r3⟩ := ih (page + 4)
          { image := stImg st u page data, bFailure := true, ok := st.ok,
            failed := st.failed + pagesInStride u page,
            trace := st.trace ++ [.mcRead page true] } rfl hf2
        dsimp only at r2 r3
        refine ⟨r1, r2, ?_⟩
        rw [r3]
        simp only [pagesInStride]
        split <;> omega
    · simp only [rdLoop]
      rw [if_neg h]
      refine ⟨hb, rfl, ?_⟩
      omega

/-- Image bytes below the current loop position are never touched by the
rest of the read loop. -/
theorem rdLoop_image_lo (env : ReadEnv) (u : Nat) :
    ∀ (fuel page : Nat) (st : RdSt) (i : Nat), i < 4 * page →
      (rdLoop env u fuel st page).image i = st.image i := by
  intro fuel
  induction fuel with
  | zero => intro page st i _; rfl
  | succ f ih =>
    intro page st i hi
    by_cases h : page < u
    · have hout : ¬(4 * page ≤ i ∧ i < 4 * page + strideLen u page) := by omega
      cases hdata : env.readBlock page with
      | none =>
        simp only [rdLoop, if_pos h, rdStep_none env u st page hdata]
        exact ih _ _ i (by omega)
      | some data =>
        cases hb : st.bFailure with
        | false =>
          simp only [rdLoop, if_pos h, rdStep_some_ok env u st page data hdata hb]
          rw [ih _ _ i (by omega)]
          simp [stImg, hout]
        | true =>
          simp only [rdLoop, if_pos h, rdStep_some_fail env u st page data hdata hb]
          rw [ih _ _ i (by omega)]
          simp [stImg, hout]
    · simp only [rdLoop]
      rw [if_neg h]

/-- Bytes of a stride whose block-read succeeds end up in the image at byte
offset page * 4, for exactly strideLen bytes, and stay there to the end of
the loop. -/
theorem rdLoop_image_at (env : ReadEnv) (u : Nat) :
    ∀ (fuel page : Nat) (st : RdSt) (p : Nat) (data : Nat → Byte) (i : Nat),
      page ≤ p → (∃ m, p = page + 4 * m) → p < u →
      env.readBlock p = some data →
      u ≤ page + 4 * fuel →
      i < strideLen u p →
      (rdLoop env u fuel st page).image (4 * p + i) = data i := by
  intro fuel
  induction fuel with
  | zero => intro page st p data i _ _ hp _ hf _; omega
  | succ f ih =>
    rintro page st p data i hle ⟨m, hm⟩ hp hdata hf hi
    have h : page < u := by omega
    have hlen16 : strideLen u p ≤ 16 := by
      simp only [strideLen]
      split <;> omega
    rcases Nat.eq_zero_or_pos m with hm0 | hmpos
    · have hpp : page = p := by omega
      subst hpp
      have hin : 4 * page ≤ 4 * page + i ∧
          4 * page + i < 4 * page + strideLen u page := by omega
      cases hb : st.bFailure with
      | false =>
        simp only [rdLoop, if_pos h, rdStep_some_ok env u st page data hdata hb]
        rw [rdLoop_image_lo env u f _ _ _ (by omega)]
        simp only [stImg, if_pos hin]
        congr 1
        omega
      | true =>
        simp only [rdLoop, if_pos h, rdStep_some_fail env u st page data hdata hb]
        rw [rdLoop_image_lo env u f _ _ _ (by omega)]
        simp only [stImg, if_pos hin]
        congr 1
        omega
    · have hrec : ∀ st2 : RdSt,
          (rdLoop env u f st2 (page + 4)).image (4 * p + i) = data i := by
        intro st2
        exact ih (page + 4) st2 p data i (by omega) ⟨m - 1, by omega⟩ hp hdata
          (by omega) hi
      cases hdd : env.readBlock page with
      | none =>
        simp only [rdLoop, if_pos h, rdStep_none env u st page hdd]
        exact hrec _
      | some d =>
        cases hb : st.bFailure with
        | false =>
          simp only [rdLoop, if_pos h, rdStep_some_ok env u st page d hdd hb]
          exact hrec _
        | true =>
          simp only [rdLoop, if_pos h, rdStep_some_fail env u st page d hdd hb]
          exact hrec _

/-- Concrete read environment for the C3 counterexample: the block-read of
the first stride fails, every other stride succeeds. -/
def c3Env : ReadEnv :=
  { readBlock := fun p => if p = 0 then Option.none else some (fun _ => 7) }

/-- C3 counterexample: on a 16-page read where only the first stride fails,
the claim predicts 4 failed and 12 successfully read pages; the code counts
0 read and all 16 failed, because bFailure is never cleared inside the loop
(lines 132-142) and later strides are counted with the stale flag. -/
theorem claim3_counterexample :
    (read_card c3Env 16 .none .none specOffsets [0, 0, 0, 0] [0, 0]).readPages
        = 0 ∧
    (read_card c3Env 16 .none .none specOffsets [0, 0, 0, 0] [0, 0]).failedPages
        = 16 ∧
    ¬((read_card c3Env 16 .none .none specOffsets [0, 0, 0, 0]
        [0, 0]).readPages = 12 ∧
      (read_card c3Env 16 .none .none specOffsets [0, 0, 0, 0]
        [0, 0]).failedPages = 4) := by
  refine ⟨by decide, by decide, ?_⟩
  rintro ⟨h1, _⟩
  have : (read_card c3Env 16 EV1Type.none NTAGType.none specOffsets
      [0, 0, 0, 0] [0, 0]).readPages = 0 := by decide
  omega

/-- C3 (amended): when the first failing stride of a bulk read is stride j,
the pages of that stride AND of every later stride are counted as failed
(not retried), only the 4 * j pages before the failure are counted as read,
the failed stride's image bytes keep their zero reset value, and the read
still returns the image. -/
theorem claim3_failure_propagation (env : ReadEnv) (u j : Nat)
    (hj : 4 * j < u)
    (hfail : env.readBlock (4 * j) = Option.none)
    (hpre : ∀ k, k < j → (env.readBlock (4 * k)).isSome) :
    (bulkRead env u).ok = 4 * j ∧
    (bulkRead env u).failed = u - 4 * j ∧
    ∀ i, i < strideLen u (4 * j) →
      (bulkRead env u).image (4 * (4 * j) + i) = 0 := by
  obtain ⟨p1, p2, p3, p4⟩ := rdLoop_success_pre env u j 0 rdInit rfl
    (fun m hm => by simpa using hpre m hm) (by omega)
  have hbr : bulkRead env u =
      rdLoop env u (u - j) (rdLoop env u j rdInit 0) (0 + 4 * j) := by
    have hs := rdLoop_split env u j (u - j) rdInit 0
    rw [show j + (u - j) = u from by omega] at hs
    exact hs
  simp only [Nat.zero_add] at hbr
  rw [show u - j = (u - j - 1) + 1 from by omega] at hbr
  simp only [rdLoop] at hbr
  rw [if_pos hj, rdStep_none env u _ (4 * j) hfail] at hbr
  obtain ⟨f1, f2, f3⟩ := rdLoop_fail_run env u (u - j - 1) (4 * j + 4)
    { image := (rdLoop env u j rdInit 0).image, bFailure := true,
      ok := (rdLoop env u j rdInit 0).ok,
      failed := (rdLoop env u j rdInit 0).failed + pagesInStride u (4 * j),
      trace := (rdLoop env u j rdInit 0).trace ++ [.mcRead (4 * j) false] }
    rfl (by omega)
  dsimp only at f2 f3
  have hlen16 : strideLen u (4 * j) ≤ 16 := by
    simp only [strideLen]
    split <;> omega
  refine ⟨?_, ?_, ?_⟩
  · rw [hbr, f2, p2]
    simp [rdInit]
  · rw [hbr, f3, p3]
    simp only [rdInit]
    simp only [pagesInStride]
    split <;> omega
  · intro i hi
    rw [hbr, rdLoop_image_lo env u (u - j - 1) (4 * j + 4) _ _ (by omega)]
    dsimp only
    rw [p4 (4 * (4 * j) + i) (by omega)]
    rfl

/-- Concrete read environment for the C3 witness: stride 1 (pages 4-7)
fails, the other strides of a 16-page tag succeed. -/
def c3wEnv : ReadEnv :=
  { readBlock := fun p => if p = 4 then Option.none else some (fun _ => 5) }

/-- C3 witness: the amended theorem applied to the concrete 16-page read
whose second stride fails: 4 pages read, 12 failed, the failed stride's
first image byte still zero. -/
theorem claim3_failure_propagation_witness :
    (bulkRead c3wEnv 16).ok = 4 ∧ (bulkRead c3wEnv 16).failed = 12 ∧
    (bulkRead c3wEnv 16).image 16 = 0 := by
  have h := claim3_failure_propagation c3wEnv 16 1 (by omega) rfl
    (by decide)
  exact ⟨h.1, h.2.1, h.2.2 0 (by decide)⟩

/-- C6: the stride copy length is min(4, remaining pages) * 4 bytes, the
copied bytes of any successful stride land in the image at byte offset
page * 4, and in particular the final stride of a 41-page variant copies
exactly 4 bytes. -/
theorem claim6_stride_sizing :
    (∀ u p : Nat, strideLen u p = min 4 (u - p) * 4) ∧
    (∀ (env : ReadEnv) (u k : Nat) (data : Nat → Byte) (i : Nat),
      4 * k < u → env.readBlock (4 * k) = some data →
      i < strideLen u (4 * k) →
      (bulkRead env u).image (4 * (4 * k) + i) = data i) ∧
    strideLen 41 40 = 4 := by
  refine ⟨?_, ?_, by decide⟩
  · intro u p
    simp only [strideLen]
    split
    · rw [show min 4 (u - p) = u - p from by omega]
    · rw [show min 4 (u - p) = 4 from by omega]
  · intro env u k data i hk hdata hi
    unfold bulkRead
    exact rdLoop_image_at env u u 0 rdInit (4 * k) data i (by omega)
      ⟨k, by omega⟩ hk hdata (by omega) hi

/-- Concrete read environment for the C6 witness: every block-read returns
the bytes i + 1. -/
def c6wEnv : ReadEnv := { readBlock := fun _ => some (fun i => i + 1) }

/-- C6 witness: the sizing theorem applied at the final stride of a 41-page
read: the byte at image offset 160 (page 40) is the first response byte,
and the final stride length is min(4, 41 - 40) * 4 = 4. -/
theorem claim6_stride_sizing_witness :
    (bulkRead c6wEnv 41).image 160 = 1 ∧
    strideLen 41 40 = min 4 (41 - 40) * 4 :=
  ⟨claim6_stride_sizing.2.1 c6wEnv 41 10 (fun i => i + 1) 0 (by decide) rfl
    (by decide),
   claim6_stride_sizing.1 41 40⟩

/-- The read of the C8 scenario: a UL11 tag (20 pages) with password
AA BB CC DD and PACK EE FF, secrets overlaid at the spec-modelled offsets. -/
def c8Read (env : ReadEnv) : ReadRes :=
  read_card env 20 .ul11 .none specOffsets [0xAA, 0xBB, 0xCC, 0xDD]
    [0xEE, 0xFF]

/-- C8: after a fully successful UL11 read (all strides succeed), the read
reports 20 pages read and none failed, and the secret overlay leaves the
four bytes of page 4 equal to AA BB CC DD and the first two bytes of page 5
equal to EE FF. -/
theorem claim8_ul11_overlay (env : ReadEnv)
    (hall : ∀ m, 4 * m < 20 → (env.readBlock (4 * m)).isSome) :
    (c8Read env).result = true ∧ (c8Read env).readPages = 20 ∧
    (c8Read env).failedPages = 0 ∧
    (c8Read env).image 16 = 0xAA ∧ (c8Read env).image 17 = 0xBB ∧
    (c8Read env).image 18 = 0xCC ∧ (c8Read env).image 19 = 0xDD ∧
    (c8Read env).image 20 = 0xEE ∧ (c8Read env).image 21 = 0xFF := by
  obtain ⟨b1, b2, b3⟩ := rdLoop_success_run env 20 20 0 rdInit rfl
    (fun m hm => by simpa using hall m (by simpa using hm)) (by omega)
  have hb : (bulkRead env 20).bFailure = false := b1
  have hok : (bulkRead env 20).ok = 20 := by
    rw [show bulkRead env 20 = rdLoop env 20 20 rdInit 0 from rfl, b2]
    rfl
  have hfl : (bulkRead env 20).failed = 0 := by
    rw [show bulkRead env 20 = rdLoop env 20 20 rdInit 0 from rfl, b3]
    rfl
  refine ⟨?_, ?_, ?_, ?_, ?_, ?_, ?_, ?_, ?_⟩ <;>
    simp [c8Read, read_card, applyNtagOverlay, applyEv1Overlay, overlayAt,
      specOffsets, hb, hok, hfl]

/-- Concrete read environment for the C8 witness: every block-read succeeds
with constant bytes. -/
def c8wEnv : ReadEnv := { readBlock := fun _ => some (fun _ => 9) }

/-- C8 witness: the overlay theorem applied to a concrete fully successful
read. -/
theorem claim8_ul11_overlay_witness :
    (c8Read c8wEnv).result = true ∧ (c8Read c8wEnv).readPages = 20 ∧
    (c8Read c8wEnv).failedPages = 0 ∧
    (c8Read c8wEnv).image 16 = 0xAA ∧ (c8Read c8wEnv).image 17 = 0xBB ∧
    (c8Read c8wEnv).image 18 = 0xCC ∧ (c8Read c8wEnv).image 19 = 0xDD ∧
    (c8Read c8wEnv).image 20 = 0xEE ∧ (c8Read c8wEnv).image 21 = 0xFF :=
  claim8_ul11_overlay c8wEnv (fun _ _ => rfl)

/-! ## Write-loop lemmas -/

/-- The attempted-pages list of either branch of a write-loop step result. -/
def sumAtt : WSt ⊕ WSt → List Nat
  | .inl s => s.attempted
  | .inr s => s.attempted

/-- The skip conditions of the write loop, as one predicate: page 2 with
write-lock off, page 3 with write-OTP off, the variant dynamic-lock page
with write-dynamic-lock off. -/
def skippedByP (otp lock dyn : Bool) (ev1 : EV1Type) (ntag : NTAGType)
    (page : Nat) : Prop :=
  (lock = false ∧ page = 2) ∨ (page = 3 ∧ otp = false) ∨
  (dynLockPage ev1 ntag page = true ∧ dyn = false)

/-- The dynamic-lock page is one of 0x24, 0x28, 0x82, 0xe2. -/
theorem dynLockPage_vals (ev1 : EV1Type) (ntag : NTAGType) (page : Nat)
    (h : dynLockPage ev1 ntag page = true) :
    page = 0x24 ∨ page = 0x28 ∨ page = 0x82 ∨ page = 0xe2 := by
  simp only [dynLockPage, Bool.or_eq_true, Bool.and_eq_true,
    decide_eq_true_eq] at h
  rcases h with ((⟨-, h⟩ | ⟨-, h⟩) | ⟨-, h⟩) | ⟨-, h⟩ <;> omega

/-- A skip-eligible page leaves the attempted list unchanged in one step. -/
theorem wrStep_att_skip (env : WEnv) (otp lock dyn : Bool) (ev1 : EV1Type)
    (ntag : NTAGType) (st : WSt) (page : Nat)
    (h : skippedByP otp lock dyn ev1 ntag page) :
    sumAtt (wrStep env otp lock dyn ev1 ntag st page) = st.attempted := by
  rcases h with ⟨h1, h2⟩ | ⟨h1, h2⟩ | ⟨h1, h2⟩
  · unfold wrStep
    rw [if_pos ⟨h1, h2⟩]
    rfl
  · unfold wrStep
    rw [if_neg (by rintro ⟨-, hp⟩; omega), if_pos ⟨h1, h2⟩]
    rfl
  · have hpv := dynLockPage_vals ev1 ntag page h1
    unfold wrStep
    rw [if_neg (by rintro ⟨-, hp⟩; omega),
      if_neg (by rintro ⟨hp, -⟩; omega), if_pos ⟨h1, h2⟩]
    rfl

/-- One write-loop step extends the attempted list by at most the current
page. -/
theorem wrStep_att_sub (env : WEnv) (otp lock dyn : Bool) (ev1 : EV1Type)
    (ntag : NTAGType) (st : WSt) (page : Nat) :
    sumAtt (wrStep env otp lock dyn ev1 ntag st page) = st.attempted ∨
    sumAtt (wrStep env otp lock dyn ev1 ntag st page) =
      st.attempted ++ [page] := by
  unfold wrStep
  split_ifs <;> simp [sumAtt]

/-- A page that is below the loop start or skip-eligible never enters the
attempted list, in any outcome of the loop. -/
theorem wrLoop_att (env : WEnv) (otp lock dyn : Bool) (ev1 : EV1Type)
    (ntag : NTAGType) (u : Nat) :
    ∀ (fuel page : Nat) (st : WSt) (p : Nat),
      p ∉ st.attempted →
      (p < page ∨ skippedByP otp lock dyn ev1 ntag p) →
      p ∉ (wrLoop env otp lock dyn ev1 ntag u fuel st page).1.attempted := by
  intro fuel
  induction fuel with
  | zero => intro page st p hst _; exact hst
  | succ f ih =>
    intro page st p hst hcond
    by_cases h : page < u
    · have hatt : p ∉ sumAtt (wrStep env otp lock dyn ev1 ntag st page) := by
        by_cases hpp : page = p
        · subst hpp
          rcases hcond with hlt | hskip
          · omega
          · rw [wrStep_att_skip env otp lock dyn ev1 ntag st page hskip]
            exact hst
        · rcases wrStep_att_sub env otp lock dyn ev1 ntag st page with he | he <;>
            rw [he]
          · exact hst
          · simp only [List.mem_append, List.mem_singleton]
            rintro (hc | hc)
            · exact hst hc
            · exact hpp hc.symm
      cases hstep : wrStep env otp lock dyn ev1 ntag st page with
      | inl st2 =>
        simp only [wrLoop, if_pos h, hstep]
        refine ih (page + 1) st2 p ?_ ?_
        · rw [hstep] at hatt
          simpa [sumAtt] using hatt
        · rcases hcond with hlt | hskip
          · exact Or.inl (by omega)
          · exact Or.inr hskip
      | inr st2 =>
        simp only [wrLoop, if_pos h, hstep]
        rw [hstep] at hatt
        simpa [sumAtt] using hatt
    · simp only [wrLoop]
      rw [if_neg h]
      exact hst

/-- One continuing write-loop step accounts exactly one page: it adds 1 to
exactly one of the written, skipped, failed counters. -/
theorem wrStep_sum_inl (env : WEnv) (otp lock dyn : Bool) (ev1 : EV1Type)
    (ntag : NTAGType) (st : WSt) (page : Nat) (st2 : WSt)
    (h : wrStep env otp lock dyn ev1 ntag st page = Sum.inl st2) :
    st2.written + st2.skipped + st2.failed =
      st.written + st.skipped + st.failed + 1 := by
  simp only [wrStep] at h
  split_ifs at h <;>
    first
      | exact Sum.noConfusion h
      | (injection h with h2; subst h2; dsimp only; omega)

/-- A write-loop run that terminates without a tag-lost abort accounts every
page from the current position to uiBlocks exactly once in the three
counters. -/
theorem wrLoop_sum (env : WEnv) (otp lock dyn : Bool) (ev1 : EV1Type)
    (ntag : NTAGType) (u : Nat) :
    ∀ (fuel page : Nat) (st r : WSt),
      u ≤ page + fuel →
      wrLoop env otp lock dyn ev1 ntag u fuel st page = (r, false) →
      r.written + r.skipped + r.failed =
        st.written + st.skipped + st.failed + (u - page) := by
  intro fuel
  induction fuel with
  | zero =>
    intro page st r hf h
    simp only [wrLoop] at h
    injection h with h1 h2
    subst h1
    omega
  | succ f ih =>
    intro page st r hf h
    by_cases hp : page < u
    · cases hstep : wrStep env otp lock dyn ev1 ntag st page with
      | inl st2 =>
        simp only [wrLoop, if_pos hp, hstep] at h
        have hrec := ih (page + 1) st2 r (by omega) h
        have hone := wrStep_sum_inl env otp lock dyn ev1 ntag st page st2 hstep
        omega
      | inr st2 =>
        simp only [wrLoop, if_pos hp, hstep] at h
        injection h with h1 h2
        exact absurd h2 (by simp)
    · simp only [wrLoop] at h
      rw [if_neg hp] at h
      injection h with h1 h2
      subst h1
      omega

/-- Attempted pages of the final write result, given the loop output. -/
theorem wr_result_att (r : WSt × Bool) (mi : Bool) (p : Nat)
    (h : p ∉ r.1.attempted) :
    p ∉ (if r.2 then WriteResult.tagLost r.1 mi
         else WriteResult.done r.1 mi).attempted := by
  cases r with
  | mk a b => cases b <;> simpa [WriteResult.attempted] using h

/-- A done write result determines the loop output. -/
theorem wr_result_done (r : WSt × Bool) (mi : Bool) (st : WSt) (mi2 : Bool)
    (h : (if r.2 then WriteResult.tagLost r.1 mi
          else WriteResult.done r.1 mi) = .done st mi2) :
    r = (st, false) := by
  cases r with
  | mk a b =>
    cases b
    · simp only [if_neg (by simp : ¬(false = true))] at h
      injection h with h1 h2
      subst h1
      rfl
    · simp only [if_pos rfl] at h
      exact WriteResult.noConfusion h

/-- A skip-eligible page (for the resolved flags) is never written by
write_card, in any outcome. -/
theorem write_card_att_skip (env : WEnv) (wotp wlock wdyn wuid : Bool)
    (ev1 : EV1Type) (ntag : NTAGType) (u p : Nat)
    (hp : skippedByP (resolveFlag wotp env.prompts.otp)
      (resolveFlag wlock env.prompts.lock)
      (resolveDyn wdyn env.prompts.dynLock ev1 ntag) ev1 ntag p) :
    p ∉ (write_card env wotp wlock wdyn wuid ev1 ntag u).attempted := by
  simp only [write_card]
  by_cases huid : resolveFlag wuid env.prompts.uid = false
  · rw [if_pos huid]
    exact wr_result_att _ false p
      (wrLoop_att env _ _ _ ev1 ntag u u 2
        { bFailure := false, written := 0, skipped := 2, failed := 0,
          skippedPages := [], attempted := [] } p (by simp) (Or.inr hp))
  · rw [if_neg huid]
    by_cases hm : (check_magic env.magic).2 = false
    · rw [if_pos hm]
      simp [WriteResult.attempted]
    · rw [if_neg hm]
      exact wr_result_att _ true p
        (wrLoop_att env _ _ _ ev1 ntag u u 0
          { bFailure := false, written := 0, skipped := 0, failed := 0,
            skippedPages := [], attempted := [] } p (by simp) (Or.inr hp))

/-- With the resolved UID flag off, pages 0 and 1 are never written by
write_card. -/
theorem write_card_att_low (env : WEnv) (wotp wlock wdyn wuid : Bool)
    (ev1 : EV1Type) (ntag : NTAGType) (u p : Nat)
    (huid : resolveFlag wuid env.prompts.uid = false) (hp : p < 2) :
    p ∉ (write_card env wotp wlock wdyn wuid ev1 ntag u).attempted := by
  simp only [write_card]
  rw [if_pos huid]
  exact wr_result_att _ false p
    (wrLoop_att env _ _ _ ev1 ntag u u 2
      { bFailure := false, written := 0, skipped := 2, failed := 0,
        skippedPages := [], attempted := [] } p (by simp) (Or.inl hp))

/-- With the resolved UID flag off, the Magic-Tag Unlocker never runs. -/
theorem write_card_magicRan (env : WEnv) (wotp wlock wdyn wuid : Bool)
    (ev1 : EV1Type) (ntag : NTAGType) (u : Nat)
    (huid : resolveFlag wuid env.prompts.uid = false) :
    (write_card env wotp wlock wdyn wuid ev1 ntag u).magicRan = false := by
  simp only [write_card]
  rw [if_pos huid]
  rcases hr : wrLoop env (resolveFlag wotp env.prompts.otp)
      (resolveFlag wlock env.prompts.lock)
      (resolveDyn wdyn env.prompts.dynLock ev1 ntag) ev1 ntag u u
      { bFailure := false, written := 0, skipped := 2, failed := 0,
        skippedPages := [], attempted := [] } 2 with ⟨r, ab⟩
  cases ab <;> simp [WriteResult.magicRan]

/-- C2: in every write session (over all flag, prompt, variant, page-count
and transceiver-outcome choices), page 2 is never written unless the
resolved write-lock flag is set; page 3 never unless write-OTP; the variant
dynamic-lock page (0x24 UL21, 0x28 NTAG213, 0x82 NTAG215, 0xe2 NTAG216)
never unless write-dynamic-lock; pages 0 and 1 never unless write-UID; and
with write-UID off the Magic-Tag Unlocker never runs. -/
theorem claim2_write_skip_policy (env : WEnv) (wotp wlock wdyn wuid : Bool)
    (ev1 : EV1Type) (ntag : NTAGType) (u : Nat) :
    (resolveFlag wlock env.prompts.lock = false →
      2 ∉ (write_card env wotp wlock wdyn wuid ev1 ntag u).attempted) ∧
    (resolveFlag wotp env.prompts.otp = false →
      3 ∉ (write_card env wotp wlock wdyn wuid ev1 ntag u).attempted) ∧
    (resolveDyn wdyn env.prompts.dynLock ev1 ntag = false →
      (ev1 = EV1Type.ul21 →
        0x24 ∉ (write_card env wotp wlock wdyn wuid ev1 ntag u).attempted) ∧
      (ntag = NTAGType.n213 →
        0x28 ∉ (write_card env wotp wlock wdyn wuid ev1 ntag u).attempted) ∧
      (ntag = NTAGType.n215 →
        0x82 ∉ (write_card env wotp wlock wdyn wuid ev1 ntag u).attempted) ∧
      (ntag = NTAGType.n216 →
        0xe2 ∉ (write_card env wotp wlock wdyn wuid ev1 ntag u).attempted)) ∧
    (resolveFlag wuid env.prompts.uid = false →
      0 ∉ (write_card env wotp wlock wdyn wuid ev1 ntag u).attempted ∧
      1 ∉ (write_card env wotp wlock wdyn wuid ev1 ntag u).attempted ∧
      (write_card env wotp wlock wdyn wuid ev1 ntag u).magicRan = false) := by
  refine ⟨?_, ?_, ?_, ?_⟩
  · intro hl
    exact write_card_att_skip env wotp wlock wdyn wuid ev1 ntag u 2
      (Or.inl ⟨hl, rfl⟩)
  · intro ho
    exact write_card_att_skip env wotp wlock wdyn wuid ev1 ntag u 3
      (Or.inr (Or.inl ⟨rfl, ho⟩))
  · intro hd
    refine ⟨?_, ?_, ?_, ?_⟩ <;> intro hv <;> subst hv <;>
      exact write_card_att_skip env wotp wlock wdyn wuid _ _ u _
        (Or.inr (Or.inr ⟨by simp [dynLockPage], hd⟩))
  · intro hu
    exact ⟨write_card_att_low env wotp wlock wdyn wuid ev1 ntag u 0 hu
        (by omega),
      write_card_att_low env wotp wlock wdyn wuid ev1 ntag u 1 hu (by omega),
      write_card_magicRan env wotp wlock wdyn wuid ev1 ntag u hu⟩

/-- Concrete write environment for the C2 witness: all prompts answered no,
all transceives succeed. -/
def c2Env : WEnv :=
  { prompts := { otp := false, lock := false, dynLock := false, uid := false },
    magic := { read0 := Option.none, write := fun _ => true,
               unlockEnv := { startOk := true, haltOk := true, bitsOk := true,
                              unlock2Ok := true, endOk := true } },
    writeOk := fun _ => true, reselectOk := fun _ => true }

/-- C2 witness: the skip-policy theorem applied to a concrete UL21 session
with all flags and prompts off. -/
theorem claim2_write_skip_policy_witness :
    2 ∉ (write_card c2Env false false false false .ul21 .none 41).attempted ∧
    3 ∉ (write_card c2Env false false false false .ul21 .none 41).attempted ∧
    0x24 ∉ (write_card c2Env false false false false .ul21 .none 41).attempted ∧
    0 ∉ (write_card c2Env false false false false .ul21 .none 41).attempted ∧
    1 ∉ (write_card c2Env false false false false .ul21 .none 41).attempted ∧
    (write_card c2Env false false false false .ul21 .none 41).magicRan
      = false := by
  have h := claim2_write_skip_policy c2Env false false false false .ul21
    .none 41
  exact ⟨h.1 rfl, h.2.1 rfl, (h.2.2.1 rfl).1 rfl, (h.2.2.2 rfl).1,
    (h.2.2.2 rfl).2.1, (h.2.2.2 rfl).2.2⟩

/-- C10: whenever write_card completes without a tag-lost abort or a failed
magic unlock (the done result, the only case where the C function returns
true), the written, skipped and failed counters sum to the page count. -/
theorem claim10_counter_accounting (env : WEnv)
    (wotp wlock wdyn wuid : Bool) (ev1 : EV1Type) (ntag : NTAGType)
    (u : Nat) (st : WSt) (mi : Bool) (h2 : 2 ≤ u)
    (hdone : write_card env wotp wlock wdyn wuid ev1 ntag u = .done st mi) :
    st.written + st.skipped + st.failed = u := by
  simp only [write_card] at hdone
  by_cases huid : resolveFlag wuid env.prompts.uid = false
  · rw [if_pos huid] at hdone
    have hr := wr_result_done _ _ _ _ hdone
    have hsum := wrLoop_sum env (resolveFlag wotp env.prompts.otp)
      (resolveFlag wlock env.prompts.lock)
      (resolveDyn wdyn env.prompts.dynLock ev1 ntag) ev1 ntag u u 2
      { bFailure := false, written := 0, skipped := 2, failed := 0,
        skippedPages := [], attempted := [] } st (by omega) hr
    dsimp only at hsum
    omega
  · rw [if_neg huid] at hdone
    by_cases hm : (check_magic env.magic).2 = false
    · rw [if_pos hm] at hdone
      exact WriteResult.noConfusion hdone
    · rw [if_neg hm] at hdone
      have hr := wr_result_done _ _ _ _ hdone
      have hsum := wrLoop_sum env (resolveFlag wotp env.prompts.otp)
        (resolveFlag wlock env.prompts.lock)
        (resolveDyn wdyn env.prompts.dynLock ev1 ntag) ev1 ntag u u 0
        { bFailure := false, written := 0, skipped := 0, failed := 0,
          skippedPages := [], attempted := [] } st (by omega) hr
      dsimp only at hsum
      omega

/-- Concrete write environment for the C10 witness. -/
def c10Env : WEnv :=
  { prompts := { otp := false, lock := false, dynLock := false, uid := false },
    magic := { read0 := Option.none, write := fun _ => true,
               unlockEnv := { startOk := true, haltOk := true, bitsOk := true,
                              unlock2Ok := true, endOk := true } },
    writeOk := fun _ => true, reselectOk := fun _ => true }

/-- The final write state of the concrete C10 session: a 16-page plain
Ultralight write with all flags off, every page-write succeeding. -/
def c10St : WSt :=
  { bFailure := false, written := 12, skipped := 4, failed := 0,
    skippedPages := [2, 3],
    attempted := [4, 5, 6, 7, 8, 9, 10, 11, 12, 13, 14, 15] }

/-- C10 witness: the accounting theorem applied to the concrete session. -/
theorem claim10_counter_accounting_witness :
    c10St.written + c10St.skipped + c10St.failed = 16 :=
  claim10_counter_accounting c10Env false false false false .none .none 16
    c10St false (by omega) (by decide)

/-! ## Session lemmas -/

/-- The argument loop never changes the bPWD flag in one step. -/
theorem argStep_bPWD (a : Args) (s : List Char) (a2 : Args)
    (h : argStep a s = some a2) : a2.bPWD = a.bPWD := by
  simp only [argStep] at h
  split at h <;>
    first
      | exact Option.noConfusion h
      | (injection h with h1; subst h1; rfl)
      | (split_ifs at h <;>
          first
            | exact Option.noConfusion h
            | (injection h with h1; subst h1; rfl))

/-- The argument loop never changes the bPWD flag. -/
theorem parseLoop_bPWD :
    ∀ (l : List (List Char)) (a r : Args), parseLoop l a = some r →
      r.bPWD = a.bPWD := by
  intro l
  induction l with
  | nil =>
    intro a r h
    simp only [parseLoop] at h
    injection h with h1
    subst h1
    rfl
  | cons s rest ih =>
    intro a r h
    simp only [parseLoop] at h
    cases hs : argStep a s with
    | none => rw [hs] at h; exact Option.noConfusion h
    | some a2 =>
      rw [hs] at h
      rw [ih a2 r h]
      exact argStep_bPWD a s a2 hs

/-- No recognized argument vector ever sets the password flag. -/
theorem parseArgs_bPWD (argv : List (List Char)) (a : Args)
    (h : parseArgs argv = some a) : a.bPWD = false :=
  parseLoop_bPWD argv argsInit a h

/-- The version probe emits no authentication frames. -/
theorem probe_trace_auth (e : ProbeEnv) :
    (get_ev1_version e).1.filter isAuthEv = [] := by
  unfold get_ev1_version
  split_ifs <;> rfl

/-- The read loop emits no authentication frames. -/
theorem rdLoop_trace_auth (env : ReadEnv) (u : Nat) :
    ∀ (fuel page : Nat) (st : RdSt), st.trace.filter isAuthEv = [] →
      (rdLoop env u fuel st page).trace.filter isAuthEv = [] := by
  intro fuel
  induction fuel with
  | zero => intro page st h; exact h
  | succ f ih =>
    intro page st h
    by_cases hp : page < u
    · cases hdata : env.readBlock page with
      | none =>
        simp only [rdLoop, if_pos hp, rdStep_none env u st page hdata]
        apply ih
        dsimp only
        rw [List.filter_append, h]
        rfl
      | some data =>
        cases hb : st.bFailure with
        | false =>
          simp only [rdLoop, if_pos hp,
            rdStep_some_ok env u st page data hdata hb]
          apply ih
          dsimp only
          rw [List.filter_append, h]
          rfl
        | true =>
          simp only [rdLoop, if_pos hp,
            rdStep_some_fail env u st page data hdata hb]
          apply ih
          dsimp only
          rw [List.filter_append, h]
          rfl
    · simp only [rdLoop]
      rw [if_neg hp]
      exact h

/-- The bulk read emits no authentication frames. -/
theorem bulk_trace_auth (env : ReadEnv) (u : Nat) :
    (bulkRead env u).trace.filter isAuthEv = [] :=
  rdLoop_trace_auth env u u 0 rdInit rfl

/-- Every index of an all-zero 4-byte list reads zero. -/
theorem getD_zeros4 (n : Nat) : ([0, 0, 0, 0] : List Byte).getD n 0 = 0 := by
  rcases n with _ | _ | _ | _ | n <;> rfl

/-- Every index of an all-zero 2-byte list reads zero. -/
theorem getD_zeros2 (n : Nat) : ([0, 0] : List Byte).getD n 0 = 0 := by
  rcases n with _ | _ | n <;> rfl

/-- A zero-password zero-PACK overlay pair writes only zeros. -/
theorem overlay2_val (o1 o2 : Nat) (img : Nat → Byte) (i : Nat) :
    overlayAt o2 [0, 0] (overlayAt o1 [0, 0, 0, 0] img) i = 0 ∨
    overlayAt o2 [0, 0] (overlayAt o1 [0, 0, 0, 0] img) i = img i := by
  unfold overlayAt
  split_ifs
  · exact Or.inl (getD_zeros2 _)
  · exact Or.inl (getD_zeros4 _)
  · exact Or.inr rfl

/-- Inside the password region of a zero overlay pair, the image is zero. -/
theorem overlay2_in1 (o1 o2 j : Nat) (hj : j < 4) (img : Nat → Byte) :
    overlayAt o2 [0, 0] (overlayAt o1 [0, 0, 0, 0] img) (o1 + j) = 0 := by
  unfold overlayAt
  split_ifs with h1 h2
  · exact getD_zeros2 _
  · exact getD_zeros4 _
  · exact absurd ⟨Nat.le_add_right o1 j, by simp; omega⟩ h2

/-- Inside the PACK region of a zero overlay pair, the image is zero. -/
theorem overlay2_in2 (o1 o2 j : Nat) (hj : j < 2) (img : Nat → Byte) :
    overlayAt o2 [0, 0] (overlayAt o1 [0, 0, 0, 0] img) (o2 + j) = 0 := by
  unfold overlayAt
  split_ifs with h1
  · exact getD_zeros2 _
  all_goals exact absurd ⟨Nat.le_add_right o2 j, by simp; omega⟩ h1

/-- The NTAG overlay switch with zero secrets writes zeros or keeps bytes. -/
theorem applyNtag_zero_or_id (offs : OverlayOffsets) (ntag : NTAGType)
    (img : Nat → Byte) (i : Nat) :
    applyNtagOverlay offs ntag [0, 0, 0, 0] [0, 0] img i = 0 ∨
    applyNtagOverlay offs ntag [0, 0, 0, 0] [0, 0] img i = img i := by
  cases ntag with
  | none => exact Or.inr rfl
  | n213 => exact overlay2_val _ _ _ _
  | n215 => exact overlay2_val _ _ _ _
  | n216 => exact overlay2_val _ _ _ _

/-- Properties of the post-classification session continuation when the
password flag is off: no auth frame, secrets stay zero, and a completed
image is the bulk image with both zero overlays applied. -/
theorem afterProbe_props (a : Args) (env : SessEnv) (offs : OverlayOffsets)
    (tr : List Ev) (ev1 : EV1Type) (ntag : NTAGType) (blocks : Nat)
    (hpwd : a.bPWD = false) (htr : tr.filter isAuthEv = []) :
    (afterProbe a env offs [0, 0, 0, 0] tr ev1 ntag blocks).trace.filter
        isAuthEv = [] ∧
    (afterProbe a env offs [0, 0, 0, 0] tr ev1 ntag blocks).iPWD
        = [0, 0, 0, 0] ∧
    (afterProbe a env offs [0, 0, 0, 0] tr ev1 ntag blocks).iPACK = [0, 0] ∧
    (afterProbe a env offs [0, 0, 0, 0] tr ev1 ntag blocks).iEV1 = ev1 ∧
    (afterProbe a env offs [0, 0, 0, 0] tr ev1 ntag blocks).iNTAG = ntag ∧
    ∀ (img : Nat → Byte) (rok : Bool),
      (afterProbe a env offs [0, 0, 0, 0] tr ev1 ntag blocks).out
          = SessOut.completed img rok →
      img = applyNtagOverlay offs ntag [0, 0, 0, 0] [0, 0]
        (applyEv1Overlay offs ev1 [0, 0, 0, 0] [0, 0]
          (bulkRead env.read blocks).image) := by
  refine ⟨?_, ?_, ?_, ?_, ?_, ?_⟩
  · simp only [afterProbe, hpwd, Bool.false_eq_true, if_false]
    rw [List.filter_append, htr]
    simp only [read_card]
    simpa using bulk_trace_auth env.read blocks
  · simp only [afterProbe, hpwd, Bool.false_eq_true, if_false]
  · simp only [afterProbe, hpwd, Bool.false_eq_true, if_false]
  · simp only [afterProbe, hpwd, Bool.false_eq_true, if_false]
  · simp only [afterProbe, hpwd, Bool.false_eq_true, if_false]
  · intro img rok hout
    simp only [afterProbe, hpwd, Bool.false_eq_true, if_false] at hout
    injection hout with h1 h2
    rw [← h1]
    simp only [read_card]

/-- A successful probe evaluates to the full three-event trace and true. -/
theorem probe_success_eval (e : ProbeEnv) (hs : e.startOk = true)
    (ht : e.txOk = true) (he : e.endOk = true) (hr : e.resp ≠ []) :
    get_ev1_version e =
      ([.rawStart true, .versionFrame true, .rawEnd true], true) := by
  unfold get_ev1_version
  rw [if_neg (by simp [hs]), if_neg (by simp [ht]), if_neg (by simp [he]),
    if_neg (by simp [List.length_eq_zero, hr])]

/-- C1: the variant table of main lines 637-665: 0x0b and 0x00 give UL11
with 20 pages, 0x0e UL21 with 41, 0x0f NTAG213 with 45, 0x11 NTAG215 with
135, 0x13 NTAG216 with 231; every other byte is the unknown-variant
failure; a missing version response classifies as NONE with the default
page count 16; and a session whose version byte is unknown exits at once,
issuing no block-read or page-write command. -/
theorem claim1_variant_classification :
    (classifyByte 0x0b = .ok .ul11 .none 20) ∧
    (classifyByte 0x00 = .ok .ul11 .none 20) ∧
    (classifyByte 0x0e = .ok .ul21 .none 41) ∧
    (classifyByte 0x0f = .ok .none .n213 45) ∧
    (classifyByte 0x11 = .ok .none .n215 135) ∧
    (classifyByte 0x13 = .ok .none .n216 231) ∧
    (∀ b : Byte, b ≠ 0x00 → b ≠ 0x0b → b ≠ 0x0e → b ≠ 0x0f → b ≠ 0x11 →
      b ≠ 0x13 → classifyByte b = .unknownVariant) ∧
    (classify Option.none = .ok .none .none 16) ∧
    (∀ (a : Args) (env : SessEnv) (offs : OverlayOffsets),
      env.probe.startOk = true → env.probe.txOk = true →
      env.probe.endOk = true → env.probe.resp ≠ [] →
      classifyByte (env.probe.resp.getD 6 0) = .unknownVariant →
      (mainSession a env offs).out = .exitUnknownVariant ∧
      (mainSession a env offs).trace.filter isTagIOEv = []) := by
  refine ⟨by decide, by decide, by decide, by decide, by decide, by decide,
    ?_, rfl, ?_⟩
  · intro b h0 hb he hf h1 h3
    simp [classifyByte, h0, hb, he, hf, h1, h3]
  · intro a env offs hs ht he hr hcl
    have hpr := probe_success_eval env.probe hs ht he hr
    simp only [mainSession, hpr, hcl]
    exact ⟨rfl, rfl⟩

/-- Concrete session environment with an unknown version byte 0x14. -/
def c1wEnv : SessEnv :=
  { probe := { startOk := true, txOk := true, endOk := true,
               resp := [0, 0, 0, 0, 0, 0, 0x14] },
    reselectOk := true,
    auth := { startOk := true, txOk := true, endOk := true },
    authResp := [],
    read := { readBlock := fun _ => Option.none } }

/-- C1 witness: byte 0x14 is an unknown variant, and the concrete session
that reports it aborts with no page I/O. -/
theorem claim1_variant_classification_witness :
    classifyByte 0x14 = .unknownVariant ∧
    (mainSession argsInit c1wEnv specOffsets).out = .exitUnknownVariant ∧
    (mainSession argsInit c1wEnv specOffsets).trace.filter isTagIOEv = [] := by
  have h1 := claim1_variant_classification.2.2.2.2.2.2.1 0x14 (by decide)
    (by decide) (by decide) (by decide) (by decide) (by decide)
  have h2 := claim1_variant_classification.2.2.2.2.2.2.2.2 argsInit c1wEnv
    specOffsets rfl rfl rfl (by decide) (by decide)
  exact ⟨h1, h2.1, h2.2⟩

/-- Helper bundling all per-variant zero-secret facts for an image produced
by the two overlay switches with zero password and PACK. -/
theorem overlays_zero (offs : OverlayOffsets) (ev1 : EV1Type)
    (ntag : NTAGType) (base : Nat → Byte) :
    ((ev1 = EV1Type.ul11 →
      (∀ j, j < 4 → applyNtagOverlay offs ntag [0, 0, 0, 0] [0, 0]
        (applyEv1Overlay offs ev1 [0, 0, 0, 0] [0, 0] base)
          (offs.ul11Pwd + j) = 0) ∧
      (∀ j, j < 2 → applyNtagOverlay offs ntag [0, 0, 0, 0] [0, 0]
        (applyEv1Overlay offs ev1 [0, 0, 0, 0] [0, 0] base)
          (offs.ul11Pack + j) = 0)) ∧
    (ev1 = EV1Type.ul21 →
      (∀ j, j < 4 → applyNtagOverlay offs ntag [0, 0, 0, 0] [0, 0]
        (applyEv1Overlay offs ev1 [0, 0, 0, 0] [0, 0] base)
          (offs.ul21Pwd + j) = 0) ∧
      (∀ j, j < 2 → applyNtagOverlay offs ntag [0, 0, 0, 0] [0, 0]
        (applyEv1Overlay offs ev1 [0, 0, 0, 0] [0, 0] base)
          (offs.ul21Pack + j) = 0)) ∧
    (ntag = NTAGType.n213 →
      (∀ j, j < 4 → applyNtagOverlay offs ntag [0, 0, 0, 0] [0, 0]
        (applyEv1Overlay offs ev1 [0, 0, 0, 0] [0, 0] base)
          (offs.n213Pwd + j) = 0) ∧
      (∀ j, j < 2 → applyNtagOverlay offs ntag [0, 0, 0, 0] [0, 0]
        (applyEv1Overlay offs ev1 [0, 0, 0, 0] [0, 0] base)
          (offs.n213Pack + j) = 0)) ∧
    (ntag = NTAGType.n215 →
      (∀ j, j < 4 → applyNtagOverlay offs ntag [0, 0, 0, 0] [0, 0]
        (applyEv1Overlay offs ev1 [0, 0, 0, 0] [0, 0] base)
          (offs.n215Pwd + j) = 0) ∧
      (∀ j, j < 2 → applyNtagOverlay offs ntag [0, 0, 0, 0] [0, 0]
        (applyEv1Overlay offs ev1 [0, 0, 0, 0] [0, 0] base)
          (offs.n215Pack + j) = 0)) ∧
    (ntag = NTAGType.n216 →
      (∀ j, j < 4 → applyNtagOverlay offs ntag [0, 0, 0, 0] [0, 0]
        (applyEv1Overlay offs ev1 [0, 0, 0, 0] [0, 0] base)
          (offs.n216Pwd + j) = 0) ∧
      (∀ j, j < 2 → applyNtagOverlay offs ntag [0, 0, 0, 0] [0, 0]
        (applyEv1Overlay offs ev1 [0, 0, 0, 0] [0, 0] base)
          (offs.n216Pack + j) = 0))) := by
  refine ⟨?_, ?_, ?_, ?_, ?_⟩
  · rintro rfl
    constructor
    · intro j hj
      rcases applyNtag_zero_or_id offs ntag _ (offs.ul11Pwd + j) with h | h
      · exact h
      · rw [h]
        exact overlay2_in1 _ _ j hj _
    · intro j hj
      rcases applyNtag_zero_or_id offs ntag _ (offs.ul11Pack + j) with h | h
      · exact h
      · rw [h]
        exact overlay2_in2 _ _ j hj _
  · rintro rfl
    constructor
    · intro j hj
      rcases applyNtag_zero_or_id offs ntag _ (offs.ul21Pwd + j) with h | h
      · exact h
      · rw [h]
        exact overlay2_in1 _ _ j hj _
    · intro j hj
      rcases applyNtag_zero_or_id offs ntag _ (offs.ul21Pack + j) with h | h
      · exact h
      · rw [h]
        exact overlay2_in2 _ _ j hj _
  · rintro rfl
    exact ⟨fun j hj => overlay2_in1 _ _ j hj _,
      fun j hj => overlay2_in2 _ _ j hj _⟩
  · rintro rfl
    exact ⟨fun j hj => overlay2_in1 _ _ j hj _,
      fun j hj => overlay2_in2 _ _ j hj _⟩
  · rintro rfl
    exact ⟨fun j hj => overlay2_in1 _ _ j hj _,
      fun j hj => overlay2_in2 _ _ j hj _⟩

/-- Zero-secret property of a completed session image, per variant. -/
def secretsZero (offs : OverlayOffsets) (r : SessRes) : Prop :=
  ∀ (img : Nat → Byte) (rok : Bool), r.out = SessOut.completed img rok →
    (r.iEV1 = EV1Type.ul11 →
      (∀ j, j < 4 → img (offs.ul11Pwd + j) = 0) ∧
      (∀ j, j < 2 → img (offs.ul11Pack + j) = 0)) ∧
    (r.iEV1 = EV1Type.ul21 →
      (∀ j, j < 4 → img (offs.ul21Pwd + j) = 0) ∧
      (∀ j, j < 2 → img (offs.ul21Pack + j) = 0)) ∧
    (r.iNTAG = NTAGType.n213 →
      (∀ j, j < 4 → img (offs.n213Pwd + j) = 0) ∧
      (∀ j, j < 2 → img (offs.n213Pack + j) = 0)) ∧
    (r.iNTAG = NTAGType.n215 →
      (∀ j, j < 4 → img (offs.n215Pwd + j) = 0) ∧
      (∀ j, j < 2 → img (offs.n215Pack + j) = 0)) ∧
    (r.iNTAG = NTAGType.n216 →
      (∀ j, j < 4 → img (offs.n216Pwd + j) = 0) ∧
      (∀ j, j < 2 → img (offs.n216Pack + j) = 0))

/-- The afterProbe continuation of a bPWD-off session satisfies the whole
C9 property bundle. -/
theorem afterProbe_c9 (a : Args) (env : SessEnv) (offs : OverlayOffsets)
    (tr : List Ev) (ev1 : EV1Type) (ntag : NTAGType) (blocks : Nat)
    (hpwd : a.bPWD = false) (htr : tr.filter isAuthEv = []) :
    (afterProbe a env offs [0, 0, 0, 0] tr ev1 ntag blocks).trace.filter
        isAuthEv = [] ∧
    (afterProbe a env offs [0, 0, 0, 0] tr ev1 ntag blocks).iPWD
        = [0, 0, 0, 0] ∧
    (afterProbe a env offs [0, 0, 0, 0] tr ev1 ntag blocks).iPACK
        = [0, 0] ∧
    secretsZero offs (afterProbe a env offs [0, 0, 0, 0] tr ev1 ntag
      blocks) := by
  obtain ⟨p1, p2, p3, p4, p5, p6⟩ :=
    afterProbe_props a env offs tr ev1 ntag blocks hpwd htr
  refine ⟨p1, p2, p3, ?_⟩
  intro img rok hout
  rw [p4, p5, p6 img rok hout]
  exact overlays_zero offs ev1 ntag (bulkRead env.read blocks).image

/-- C9: for every recognized argument vector and every transceiver
environment, the session never sends an authentication frame (bPWD stays
false, so ev1_pwd_auth is never invoked), the iPWD and iPACK globals keep
their all-zero initial values, and whatever password or PACK bytes the read
overlays into the dump image for an EV1 or NTAG variant are zero. -/
theorem claim9_pwd_never_set (argv : List (List Char)) (a : Args)
    (env : SessEnv) (offs : OverlayOffsets)
    (hargs : parseArgs argv = some a) :
    (mainSession a env offs).trace.filter isAuthEv = [] ∧
    (mainSession a env offs).iPWD = [0, 0, 0, 0] ∧
    (mainSession a env offs).iPACK = [0, 0] ∧
    secretsZero offs (mainSession a env offs) := by
  have hpwd : a.bPWD = false := parseArgs_bPWD argv a hargs
  by_cases hpr : (get_ev1_version env.probe).2 = true
  · cases hcl : classifyByte (env.probe.resp.getD 6 0) with
    | unknownVariant =>
      have hm : mainSession a env offs =
          { out := .exitUnknownVariant,
            trace := (get_ev1_version env.probe).1,
            iPWD := [0, 0, 0, 0], iPACK := [0, 0], uiBlocks := 16,
            iEV1 := .none, iNTAG := .none } := by
        simp only [mainSession, hpr, hcl, if_pos]
      rw [hm]
      refine ⟨probe_trace_auth env.probe, rfl, rfl, ?_⟩
      intro img rok hout
      exact absurd hout (by simp)
    | ok ev1 ntag blocks =>
      have hm : mainSession a env offs =
          afterProbe a env offs [0, 0, 0, 0]
            (get_ev1_version env.probe).1 ev1 ntag blocks := by
        simp only [mainSession, hpr, hcl, if_pos]
      rw [hm]
      exact afterProbe_c9 a env offs _ ev1 ntag blocks hpwd
        (probe_trace_auth env.probe)
  · by_cases hrs : env.reselectOk = false
    · have hm : mainSession a env offs =
          { out := .exitNoTag,
            trace := (get_ev1_version env.probe).1 ++ [.reselect false],
            iPWD := [0, 0, 0, 0], iPACK := [0, 0], uiBlocks := 16,
            iEV1 := .none, iNTAG := .none } := by
        simp [mainSession, hpr, hrs]
      rw [hm]
      refine ⟨?_, rfl, rfl, ?_⟩
      · rw [List.filter_append, probe_trace_auth env.probe]
        rfl
      · intro img rok hout
        exact absurd hout (by simp)
    · have hm : mainSession a env offs =
          afterProbe a env offs [0, 0, 0, 0]
            ((get_ev1_version env.probe).1 ++ [.reselect true]) .none .none
            16 := by
        simp [mainSession, hpr, hrs]
      rw [hm]
      refine afterProbe_c9 a env offs _ .none .none 16 hpwd ?_
      rw [List.filter_append, probe_trace_auth env.probe]
      rfl

/-- Concrete session environment for the C9 witness: an NTAG213 version
response, every transceive succeeding. -/
def c9wEnv : SessEnv :=
  { probe := { startOk := true, txOk := true, endOk := true,
               resp := [0, 0, 0, 0, 0, 0, 0x0f] },
    reselectOk := true,
    auth := { startOk := true, txOk := true, endOk := true },
    authResp := [],
    read := { readBlock := fun _ => some (fun _ => 1) } }

/-- C9 witness: the theorem applied to a concrete argument vector and
session. -/
theorem claim9_pwd_never_set_witness :
    (mainSession argsInit c9wEnv specOffsets).trace.filter isAuthEv = [] ∧
    (mainSession argsInit c9wEnv specOffsets).iPWD = [0, 0, 0, 0] ∧
    (mainSession argsInit c9wEnv specOffsets).iPACK = [0, 0] := by
  have h := claim9_pwd_never_set [['p']] argsInit c9wEnv specOffsets
    (by decide)
  exact ⟨h.1, h.2.1, h.2.2.1⟩

end NfcCtc
